import Mathlib

/-!
# Verification of the rust-chess-engine specification against its source

This file is a shallow embedding, in Lean 4, of the parts of the
`rust-chess-engine` repository that the specification's claims are about:

* `crates/chess_core/src/position.rs`, `moves.rs`, `board.rs` (board
  representation, pseudo-legal move patterns, move application, check /
  checkmate / stalemate detection),
* `crates/chess_engine/src/evaluation.rs` (the static evaluator
  `evaluate_position`),
* `crates/chess_engine/src/search.rs` (quiescence search, move ordering,
  `principal_variation_search`, and the iterative-deepening driver
  `search_best_move`).

Modelling conventions:

* Rust `u8` coordinates become `Nat`; `i32` scores become `Int`.  The only
  places the source relies on `i32` wrap/saturation semantics use the
  `saturating_*` family, which is modelled by explicit clamping to the `i32`
  range.  All other arithmetic on the inputs considered stays far inside the
  `i32` range, so plain `Int` arithmetic coincides with the source.
* `HashMap<Position, Piece>` becomes an association list.  The source
  iterates the map directly only in existence/first-king searches whose
  results are independent of iteration order on every board used here; the
  embedding iterates the list in its stored order.
* `HashMap<String, TTEntry>` (the transposition table) becomes an
  association list keyed by the same `String` key the source builds.
* Wall-clock time (`TimeManager::should_continue`) is abstracted into an
  oracle `Nat → Bool` giving the result of the i-th poll; the poll sits at
  the top of the iterative-deepening loop exactly where the source polls.
  A time budget at least the minimum per-move allocation guarantees (at
  most) that the poll before depth 1 returns `true`.
* The shared cancellation flag `SEARCH_TERMINATED` is stored `false` at the
  start of `search_best_move` and no code in the repository ever stores
  `true`; it is threaded through as an explicit `stop : Bool` argument.
* The `static` tables `HISTORY_TABLE`, `KILLER_MOVES` and `COUNTER_MOVES`
  read by `generate_ordered_moves` have no writer anywhere in the source
  (`update_history_tables` and `update_killer_moves` are never called), so
  they keep their initial all-zero / all-`None` / empty values; the
  embedding reads exactly those initial tables.
* Rust panics (the `unwrap` of a missing king in `is_in_check`, or of a
  missing source piece in `make_move_without_validation`) can only fire on
  boards with no king of the relevant colour, or at call sites whose guards
  already rule them out; the embedding makes those reads total (no attack /
  an error) and every concrete board used below has the relevant kings.
* The `chess_core::piece` module itself is not among the provided sources;
  its data content (a piece is a kind and a colour, `Piece::new`) is fully
  determined by the spec's data model ("a full mapping of occupied
  Positions to (piece kind, color)") and by every use site in the provided
  files, and is reconstructed from those.
-/

namespace ChessCore

/-- Piece colour.  Reconstructed from the spec's data model and the use
sites of the missing `chess_core::piece` module. -/
inductive Color where
  | White
  | Black
deriving DecidableEq, Repr

/-- Piece kind.  Reconstructed from the spec's data model and the use sites
of the missing `chess_core::piece` module. -/
inductive PieceType where
  | Pawn
  | Knight
  | Bishop
  | Rook
  | Queen
  | King
deriving DecidableEq, Repr

/-- A piece: kind and colour (`Piece::new(piece_type, color)`). -/
structure Piece where
  piece_type : PieceType
  color : Color
deriving DecidableEq, Repr

/-- `Piece::new`. -/
def Piece.new (pt : PieceType) (c : Color) : Piece := ⟨pt, c⟩

/-- `Position { rank, file }` from `position.rs` (both 1..=8 on real
boards; `u8` is modelled by `Nat`). -/
structure Position where
  rank : Nat
  file : Nat
deriving DecidableEq, Repr

/-- `MoveType` from `moves.rs`. -/
inductive MoveType where
  | Normal
  | Capture
  | EnPassant
  | Castle
deriving DecidableEq, Repr

/-- `Move` from `moves.rs`.  The Rust fields `from` / `to` are named
`fromSq` / `toSq` because `from` is a Lean keyword. -/
structure Move where
  fromSq : Position
  toSq : Position
  move_type : MoveType
  promotion : Option PieceType
deriving DecidableEq, Repr

/-- `Move::new`. -/
def Move.new (f t : Position) : Move := ⟨f, t, MoveType.Normal, none⟩

/-- `Move::with_promotion`. -/
def Move.with_promotion (f t : Position) (p : PieceType) : Move :=
  ⟨f, t, MoveType.Normal, some p⟩

/-- `CastlingRights` from `board.rs`. -/
structure CastlingRights where
  white_kingside : Bool
  white_queenside : Bool
  black_kingside : Bool
  black_queenside : Bool
deriving DecidableEq, Repr

/-- `CastlingRights::default()`: everything allowed. -/
def CastlingRights.default : CastlingRights := ⟨true, true, true, true⟩

/-- `Board` from `board.rs`.  The `HashMap<Position, Piece>` is modelled by
an association list. -/
structure Board where
  pieces : List (Position × Piece)
  current_turn : Color
  castling_rights : CastlingRights
  last_move : Option Move
deriving DecidableEq, Repr

/-- Association-list lookup standing in for `HashMap::get`. -/
def findPiece : List (Position × Piece) → Position → Option Piece
  | [], _ => none
  | (q, p) :: rest, pos => if q = pos then some p else findPiece rest pos

/-- Association-list removal standing in for `HashMap::remove`. -/
def removePiece : List (Position × Piece) → Position → List (Position × Piece)
  | [], _ => []
  | (q, p) :: rest, pos =>
      if q = pos then removePiece rest pos else (q, p) :: removePiece rest pos

/-- Association-list insert-or-replace standing in for `HashMap::insert`. -/
def insertPiece (l : List (Position × Piece)) (pos : Position) (p : Piece) :
    List (Position × Piece) :=
  (pos, p) :: removePiece l pos

/-- `Board::get_piece`. -/
def Board.get_piece (b : Board) (pos : Position) : Option Piece :=
  findPiece b.pieces pos

/-- `Board::is_position_valid`. -/
def Board.is_position_valid (_b : Board) (pos : Position) : Bool :=
  1 ≤ pos.file && pos.file ≤ 8 && 1 ≤ pos.rank && pos.rank ≤ 8

/-- The opposite colour (the `match` used when flipping `current_turn`). -/
def Color.other : Color → Color
  | Color.White => Color.Black
  | Color.Black => Color.White

end ChessCore

namespace ChessCore

/-- Signed rank difference `to.rank as i8 - from.rank as i8`. -/
def rankDiff (m : Move) : Int := (m.toSq.rank : Int) - (m.fromSq.rank : Int)

/-- Signed file difference `to.file as i8 - from.file as i8`. -/
def fileDiff (m : Move) : Int := (m.toSq.file : Int) - (m.fromSq.file : Int)

/-- One step of the `while` loop of `Move::is_path_clear`, with fuel.  The
source loop advances one square per iteration and stops at the target or on
leaving the 1..=8 board range, so it runs at most 8 iterations; fuel 20 is
never exhausted (the fuel-out branch mirrors the loop's `true` exit). -/
def pathClearLoop (b : Board) (rankStep fileStep : Int)
    (targetRank targetFile : Int) : Nat → Int → Int → Bool
  | 0, _, _ => true
  | fuel + 1, curRank, curFile =>
      if (curRank ≠ targetRank ∨ curFile ≠ targetFile) ∧
          1 ≤ curRank ∧ curRank ≤ 8 ∧ 1 ≤ curFile ∧ curFile ≤ 8 then
        if (b.get_piece ⟨curRank.toNat, curFile.toNat⟩).isSome then
          false
        else
          pathClearLoop b rankStep fileStep targetRank targetFile fuel
            (curRank + rankStep) (curFile + fileStep)
      else
        true

/-- `Move::is_path_clear`. -/
def Move.is_path_clear (m : Move) (b : Board) : Bool :=
  let rankStep := (rankDiff m).sign
  let fileStep := (fileDiff m).sign
  pathClearLoop b rankStep fileStep (m.toSq.rank : Int) (m.toSq.file : Int) 20
    ((m.fromSq.rank : Int) + rankStep) ((m.fromSq.file : Int) + fileStep)

/-- `Move::is_valid_pawn_move`. -/
def Move.is_valid_pawn_move (m : Move) (color : Color) (b : Board) : Bool :=
  let direction : Int := match color with
    | Color.White => 1
    | Color.Black => -1
  let rd := rankDiff m
  let fd := fileDiff m
  -- Basic forward movement
  if fd = 0 ∧ rd = direction then
    (b.get_piece m.toSq).isNone
  else if fd = 0 ∧
      ((color = Color.White ∧ m.fromSq.rank = 2) ∨
        (color = Color.Black ∧ m.fromSq.rank = 7)) ∧
      rd = 2 * direction then
    -- Initial two-square move
    let intermediate : Position :=
      ⟨((m.fromSq.rank : Int) + direction).toNat, m.fromSq.file⟩
    (b.get_piece intermediate).isNone && (b.get_piece m.toSq).isNone
  else if fd.natAbs = 1 ∧ rd = direction then
    -- Regular capture movement
    match b.get_piece m.toSq with
    | some captured => captured.color ≠ color
    | none =>
        -- En passant capture
        match b.last_move with
        | some lastMove =>
            if lastMove.fromSq.file = m.toSq.file then
              match b.get_piece lastMove.toSq with
              | some lastPiece =>
                  if lastPiece.piece_type = PieceType.Pawn ∧
                      ((lastMove.toSq.rank : Int) - (lastMove.fromSq.rank : Int)).natAbs = 2 then
                    let expectedRank : Nat := if color = Color.White then 5 else 4
                    m.fromSq.rank = expectedRank
                  else false
              | none => false
            else false
        | none => false
  else false

/-- `Move::is_valid_knight_move`. -/
def Move.is_valid_knight_move (m : Move) : Bool :=
  let rd := (rankDiff m).natAbs
  let fd := (fileDiff m).natAbs
  (rd = 2 ∧ fd = 1) ∨ (rd = 1 ∧ fd = 2)

/-- `Move::is_valid_diagonal_move`. -/
def Move.is_valid_diagonal_move (m : Move) (b : Board) : Bool :=
  if (rankDiff m).natAbs ≠ (fileDiff m).natAbs then false
  else m.is_path_clear b

/-- `Move::is_valid_straight_move`. -/
def Move.is_valid_straight_move (m : Move) (b : Board) : Bool :=
  if rankDiff m ≠ 0 ∧ fileDiff m ≠ 0 then false
  else m.is_path_clear b

/-- `Move::is_valid_king_move`. -/
def Move.is_valid_king_move (m : Move) : Bool :=
  (rankDiff m).natAbs ≤ 1 ∧ (fileDiff m).natAbs ≤ 1

/-- `Move::is_valid_piece_movement`. -/
def Move.is_valid_piece_movement (m : Move) (piece : Piece) (b : Board) : Bool :=
  match piece.piece_type with
  | PieceType.Pawn => m.is_valid_pawn_move piece.color b
  | PieceType.Knight => m.is_valid_knight_move
  | PieceType.Bishop => m.is_valid_diagonal_move b
  | PieceType.Rook => m.is_valid_straight_move b
  | PieceType.Queen => m.is_valid_diagonal_move b || m.is_valid_straight_move b
  | PieceType.King => m.is_valid_king_move

/-- `Move::is_valid`. -/
def Move.is_valid (m : Move) (b : Board) : Bool :=
  match b.get_piece m.fromSq with
  | none => false
  | some piece =>
      if ¬ (b.is_position_valid m.fromSq ∧ b.is_position_valid m.toSq) then false
      else
        match b.get_piece m.toSq with
        | some destPiece =>
            if destPiece.color = piece.color then false
            else m.is_valid_piece_movement piece b
        | none => m.is_valid_piece_movement piece b

end ChessCore

namespace ChessCore

/-- The 64 squares in the iteration order every scan in the sources uses
(`for rank in 1..=8 { for file in 1..=8 { ... } }`, and the driver's
`(1..=8).flat_map(|rank| (1..=8).map(|file| ...))`): rank outer, file
inner. -/
def squares : List Position :=
  (List.range 8).flatMap fun r => (List.range 8).map fun f => ⟨r + 1, f + 1⟩

/-- First king of the given colour in the piece map
(`pieces.iter().find(...)` in `Board::is_in_check`); the association list
is walked in stored order.  The source `unwrap`s the result (panics with no
king); totality is recovered by returning `none`, and every board a theorem
below touches has the kings the call sites need. -/
def Board.findKingPos (b : Board) (color : Color) : Option Position :=
  (b.pieces.find? fun qp =>
      qp.2.piece_type = PieceType.King ∧ qp.2.color = color).map (·.1)

/-- `Board::is_position_under_attack`. -/
def Board.is_position_under_attack (b : Board) (pos : Position)
    (defendingColor : Color) : Bool :=
  b.pieces.any fun qp =>
    qp.2.color ≠ defendingColor ∧ (Move.new qp.1 pos).is_valid b

/-- `Board::is_in_check`. -/
def Board.is_in_check (b : Board) (color : Color) : Bool :=
  match b.findKingPos color with
  | some kingPos => b.is_position_under_attack kingPos color
  | none => false

/-- `Board::make_move_without_validation`.  The source `unwrap`s the piece
removed from the start square (all call sites have just checked it is
there); the impossible missing-piece case becomes an error. -/
def Board.make_move_without_validation (b : Board) (m : Move) :
    Except String Board :=
  match b.get_piece m.fromSq with
  | none => Except.error "no piece at move source"
  | some piece =>
      let pieces1 := removePiece b.pieces m.fromSq
      -- Handle en passant capture
      let pieces2 :=
        if piece.piece_type = PieceType.Pawn ∧ (fileDiff m).natAbs = 1 ∧
            (findPiece pieces1 m.toSq).isNone then
          match b.last_move with
          | some lastMove =>
              if lastMove.fromSq.file = m.toSq.file then
                match findPiece pieces1 lastMove.toSq with
                | some lastPiece =>
                    if lastPiece.piece_type = PieceType.Pawn ∧
                        ((lastMove.toSq.rank : Int) -
                          (lastMove.fromSq.rank : Int)).natAbs = 2 then
                      removePiece pieces1 lastMove.toSq
                    else pieces1
                | none => pieces1
              else pieces1
          | none => pieces1
        else pieces1
      match m.promotion with
      | some promotionType =>
          if piece.piece_type ≠ PieceType.Pawn then
            Except.error "Only pawns can be promoted"
          else if (piece.color = Color.White ∧ m.toSq.rank ≠ 8) ∨
              (piece.color = Color.Black ∧ m.toSq.rank ≠ 1) then
            Except.error "Pawns can only be promoted on the last rank"
          else
            Except.ok { b with
              pieces := insertPiece pieces2 m.toSq (Piece.new promotionType piece.color),
              current_turn := b.current_turn.other }
      | none =>
          Except.ok { b with
            pieces := insertPiece pieces2 m.toSq piece,
            current_turn := b.current_turn.other }

/-- `Board::update_castling_rights`. -/
def Board.update_castling_rights (b : Board) (piece : Piece) (m : Move) :
    Board :=
  match piece.piece_type with
  | PieceType.King =>
      if piece.color = Color.White then
        { b with castling_rights :=
            { b.castling_rights with white_kingside := false, white_queenside := false } }
      else
        { b with castling_rights :=
            { b.castling_rights with black_kingside := false, black_queenside := false } }
  | PieceType.Rook =>
      let rank := m.fromSq.rank
      let file := m.fromSq.file
      if piece.color = Color.White ∧ rank = 1 then
        if file = 1 then
          { b with castling_rights := { b.castling_rights with white_queenside := false } }
        else if file = 8 then
          { b with castling_rights := { b.castling_rights with white_kingside := false } }
        else b
      else if piece.color = Color.Black ∧ rank = 8 then
        if file = 1 then
          { b with castling_rights := { b.castling_rights with black_queenside := false } }
        else if file = 8 then
          { b with castling_rights := { b.castling_rights with black_kingside := false } }
        else b
      else b
  | _ => b

/-- `Board::handle_castling`. -/
def Board.handle_castling (b : Board) (m : Move) : Except String Board :=
  match b.get_piece m.fromSq with
  | none => Except.error "No king at starting position"
  | some king =>
      let rank : Nat := if king.color = Color.White then 1 else 8
      let isKingside := m.toSq.file = 7
      let canCastle :=
        if king.color = Color.White then
          if isKingside then b.castling_rights.white_kingside
          else b.castling_rights.white_queenside
        else
          if isKingside then b.castling_rights.black_kingside
          else b.castling_rights.black_queenside
      if ¬ canCastle then Except.error "Castling is not allowed"
      else
        let path : List Position :=
          if isKingside then [⟨rank, 5⟩, ⟨rank, 6⟩, ⟨rank, 7⟩]
          else [⟨rank, 3⟩, ⟨rank, 4⟩]
        if path.any fun pos => (b.get_piece pos).isSome then
          Except.error "Path is not clear for castling"
        else if path.any fun pos => b.is_position_under_attack pos king.color then
          Except.error "Cannot castle through check"
        else
          let pieces1 := insertPiece (removePiece b.pieces m.fromSq) m.toSq king
          let rookFrom : Position := ⟨rank, if isKingside then 8 else 1⟩
          let rookTo : Position := ⟨rank, if isKingside then 6 else 4⟩
          match findPiece pieces1 rookFrom with
          | none => Except.error "No rook found for castling"
          | some rook =>
              let pieces2 := insertPiece (removePiece pieces1 rookFrom) rookTo rook
              let rights :=
                if king.color = Color.White then
                  { b.castling_rights with white_kingside := false, white_queenside := false }
                else
                  { b.castling_rights with black_kingside := false, black_queenside := false }
              Except.ok { b with
                pieces := pieces2,
                castling_rights := rights,
                current_turn := b.current_turn.other }

/- Note on `handle_castling`: the source walks the path squares in order,
checking occupation then attack per square; the embedding folds that into
two `any` passes.  An error is raised in either formulation exactly when
some path square is occupied or attacked, and every caller in the sources
only observes success versus failure of the castling attempt. -/

/-- `Board::make_move`. -/
def Board.make_move (b : Board) (m : Move) : Except String Board :=
  match b.get_piece m.fromSq with
  | none => Except.error "No piece at starting position"
  | some piece =>
      if piece.color ≠ b.current_turn then Except.error "Not your turn"
      else if piece.piece_type = PieceType.King ∧ (fileDiff m).natAbs = 2 then
        b.handle_castling m
      else if ¬ m.is_valid b then Except.error "Invalid move for this piece"
      else
        match b.make_move_without_validation m with
        | Except.error e => Except.error e
        | Except.ok tempBoard =>
            if tempBoard.is_in_check piece.color then
              Except.error "Move would leave king in check"
            else
              let b1 := b.update_castling_rights piece m
              match b1.make_move_without_validation m with
              | Except.error e => Except.error e
              | Except.ok b2 => Except.ok { b2 with last_move := some m }

/-- The escape scan shared, verbatim, by `Board::is_checkmate` (lines
291-312) and `Board::is_stalemate` (lines 371-392): some piece of the side
to move has a `Move::new` target that is pattern-valid, applies without
error, and leaves that side out of check. -/
def Board.hasEscape (b : Board) : Bool :=
  b.pieces.any fun qp =>
    qp.2.color = b.current_turn ∧
    squares.any fun tgt =>
      let mv := Move.new qp.1 tgt
      mv.is_valid b &&
      match b.make_move_without_validation mv with
      | Except.ok tempBoard => ! tempBoard.is_in_check b.current_turn
      | Except.error _ => false

/-- `Board::is_checkmate`. -/
def Board.is_checkmate (b : Board) : Bool :=
  if ¬ b.is_in_check b.current_turn then false
  else ¬ b.hasEscape

/-- `Board::is_stalemate`. -/
def Board.is_stalemate (b : Board) : Bool :=
  if b.is_in_check b.current_turn then false
  else ¬ b.hasEscape

/-- `Board::get_valid_moves`. -/
def Board.get_valid_moves (b : Board) (pos : Position) : List Move :=
  match b.get_piece pos with
  | none => []
  | some piece =>
      if piece.color ≠ b.current_turn then []
      else
        squares.flatMap fun targetPos =>
          (let mv := Move.new pos targetPos
            if mv.is_valid b then [mv] else []) ++
          (if piece.piece_type = PieceType.Pawn ∧
              ((piece.color = Color.White ∧ targetPos.rank = 8) ∨
                (piece.color = Color.Black ∧ targetPos.rank = 1)) then
            [PieceType.Queen, PieceType.Rook, PieceType.Bishop,
              PieceType.Knight].filterMap fun promotionType =>
              let pm := Move.with_promotion pos targetPos promotionType
              if pm.is_valid b then some pm else none
          else [])

/-- `Board::last_move` (field read). -/
def Board.lastMoveFn (b : Board) : Option Move := b.last_move

end ChessCore

namespace ChessEval

open ChessCore

/-- `CHECKMATE_SCORE` from `evaluation.rs`. -/
def CHECKMATE_SCORE : Int := 100000

/-- `CHECKMATE_HORIZON` from `evaluation.rs`. -/
def CHECKMATE_HORIZON : Int := 90000

/-- `EndgameType` from `evaluation.rs`. -/
inductive EndgameType where
  | Normal
  | KQvsK
  | KRvsK
  | KBNvsK
  | TwoBishops
  | PawnOnly
deriving DecidableEq, Repr

/-- `get_piece_value` from `evaluation.rs` (the centipawn table; the search
module has its own, different `get_piece_value`). -/
def get_piece_value : PieceType → Int
  | PieceType.Pawn => 100
  | PieceType.Knight => 320
  | PieceType.Bishop => 330
  | PieceType.Rook => 500
  | PieceType.Queen => 900
  | PieceType.King => 20000

/-- `get_endgame_piece_value`. -/
def get_endgame_piece_value : PieceType → Int
  | PieceType.Pawn => 150
  | PieceType.Knight => 300
  | PieceType.Bishop => 350
  | PieceType.Rook => 600
  | PieceType.Queen => 900
  | PieceType.King => 20000

/-- `get_mobility_bonus`. -/
def get_mobility_bonus : PieceType → Int
  | PieceType.Pawn => 2
  | PieceType.Knight => 4
  | PieceType.Bishop => 5
  | PieceType.Rook => 3
  | PieceType.Queen => 2
  | PieceType.King => 0

/-- `get_pawn_endgame_value`. -/
def get_pawn_endgame_value : PieceType → Int
  | PieceType.Pawn => 200
  | PieceType.King => 20000
  | _ => 0

/-- `get_mating_piece_value`. -/
def get_mating_piece_value (pt : PieceType) (et : EndgameType) : Int :=
  match pt, et with
  | PieceType.Queen, EndgameType.KQvsK => 900 * 2
  | PieceType.Rook, EndgameType.KRvsK => 500 * 2
  | PieceType.Bishop, EndgameType.KBNvsK => 330 * 2
  | PieceType.Knight, EndgameType.KBNvsK => 320 * 2
  | PieceType.King, _ => 20000
  | _, _ => 0

/-- `manhattan_distance`. -/
def manhattan_distance (p1 p2 : Position) : Int :=
  ((p1.rank : Int) - (p2.rank : Int)).natAbs + ((p1.file : Int) - (p2.file : Int)).natAbs

/-- `distance_to_edge` (as written in the source: the minimum of the
distances to the *centre* rank 4 and centre file 4). -/
def distance_to_edge (pos : Position) : Int :=
  min (((pos.rank : Int) - 4).natAbs : Int) (((pos.file : Int) - 4).natAbs : Int)

/-- `distance_to_corner`. -/
def distance_to_corner (pos : Position) : Int :=
  min ((pos.rank : Int) - 1) (8 - (pos.rank : Int)) +
    min ((pos.file : Int) - 1) (8 - (pos.file : Int))

/-- `find_enemy_king` (first match in the rank-major square scan). -/
def find_enemy_king (b : Board) (color : Color) : Option Position :=
  squares.find? fun pos =>
    match b.get_piece pos with
    | some piece => piece.piece_type = PieceType.King ∧ piece.color ≠ color
    | none => false

/-- `detect_endgame_type`'s square scan: non-pawn, non-king piece kinds of
each colour in scan order, and the total pawn count. -/
def detectScan (b : Board) : List PieceType × List PieceType × Nat :=
  squares.foldl
    (fun acc pos =>
      match b.get_piece pos with
      | some piece =>
          if piece.piece_type = PieceType.Pawn then
            (acc.1, acc.2.1, acc.2.2 + 1)
          else if piece.piece_type ≠ PieceType.King then
            if piece.color = Color.White then
              (acc.1 ++ [piece.piece_type], acc.2.1, acc.2.2)
            else
              (acc.1, acc.2.1 ++ [piece.piece_type], acc.2.2)
          else acc
      | none => acc)
    ([], [], 0)

/-- `detect_endgame_type`. -/
def detect_endgame_type (b : Board) : EndgameType :=
  let scan := detectScan b
  let whitePieces := scan.1
  let blackPieces := scan.2.1
  let totalPawns := scan.2.2
  if whitePieces.isEmpty ∧ blackPieces.isEmpty ∧ totalPawns > 0 then
    EndgameType.PawnOnly
  else if whitePieces.isEmpty ∨ blackPieces.isEmpty then
    let pieces := if whitePieces.isEmpty then blackPieces else whitePieces
    match pieces with
    | [p] =>
        if p = PieceType.Queen then EndgameType.KQvsK
        else if p = PieceType.Rook then EndgameType.KRvsK
        else EndgameType.Normal
    | [_, _] =>
        if pieces.any (· = PieceType.Bishop) ∧ pieces.any (· = PieceType.Knight) then
          EndgameType.KBNvsK
        else if (pieces.filter (· = PieceType.Bishop)).length = 2 then
          EndgameType.TwoBishops
        else EndgameType.Normal
    | _ => EndgameType.Normal
  else EndgameType.Normal

/-- The stepped file scan inside `is_passed_pawn`: starting from the pawn's
rank, step by `direction` while the pre-step rank is on the board, and
report whether no enemy pawn was met.  At most 8 steps happen; fuel 10 is
never exhausted. -/
def passedScan (b : Board) (color : Color) (f : Int) (dir : Int) :
    Nat → Int → Bool
  | 0, _ => true
  | fuel + 1, r =>
      if 1 ≤ r ∧ r ≤ 8 then
        let r' := r + dir
        match b.get_piece ⟨r'.toNat, f.toNat⟩ with
        | some piece =>
            if piece.piece_type = PieceType.Pawn ∧ piece.color ≠ color then false
            else passedScan b color f dir fuel r'
        | none => passedScan b color f dir fuel r'
      else true

/-- `is_passed_pawn`. -/
def is_passed_pawn (b : Board) (pawnPos : Position) (color : Color) : Bool :=
  let dir : Int := if color = Color.White then 1 else -1
  let file : Int := (pawnPos.file : Int)
  ([file - 1, file, file + 1].filter fun f => 1 ≤ f ∧ f ≤ 8).all fun f =>
    passedScan b color f dir 10 (pawnPos.rank : Int)

/-- The stepped scan of `find_rook_behind_pawn` (break at the first piece
met; at most 8 steps, fuel 10). -/
def rookBehindScan (b : Board) (color : Color) (file : Nat) (dir : Int) :
    Nat → Int → Option Position
  | 0, _ => none
  | fuel + 1, r =>
      if 1 ≤ r ∧ r ≤ 8 then
        let r' := r + dir
        match b.get_piece ⟨r'.toNat, file⟩ with
        | some piece =>
            if piece.piece_type = PieceType.Rook ∧ piece.color = color then
              some ⟨r'.toNat, file⟩
            else none
        | none => rookBehindScan b color file dir fuel r'
      else none

/-- `find_rook_behind_pawn`. -/
def find_rook_behind_pawn (b : Board) (pawnPos : Position) (color : Color) :
    Option Position :=
  let dir : Int := if color = Color.White then -1 else 1
  rookBehindScan b color pawnPos.file dir 10 (pawnPos.rank : Int)

/-- `evaluate_passed_pawn`. -/
def evaluate_passed_pawn (b : Board) (pawnPos : Position) (color : Color) : Int :=
  if is_passed_pawn b pawnPos color then
    let rank : Nat := if color = Color.White then pawnPos.rank else 9 - pawnPos.rank
    (200 * (rank : Int)) +
      (if (find_rook_behind_pawn b pawnPos color).isSome then 300 else 0)
  else 0

/-- `evaluate_king_pawn_endgame`. -/
def evaluate_king_pawn_endgame (b : Board) (kingPos : Position) (color : Color) : Int :=
  let centerDistance := manhattan_distance kingPos ⟨4, 4⟩
  let base := (8 - centerDistance) * 200
  squares.foldl
    (fun score pos =>
      match b.get_piece pos with
      | some piece =>
          if piece.piece_type = PieceType.Pawn ∧ piece.color ≠ color then
            score + (8 - manhattan_distance kingPos pos) * 100
          else score
      | none => score)
    base

/-- `evaluate_piece_endgame`. -/
def evaluate_piece_endgame (b : Board) (pos : Position) (piece : Piece)
    (endgameType : EndgameType) : Int :=
  match endgameType with
  | EndgameType.KQvsK | EndgameType.KRvsK =>
      match find_enemy_king b piece.color with
      | some enemyKingPos =>
          let distanceToKing := manhattan_distance pos enemyKingPos
          (14 - distanceToKing) * 100 +
            (if (piece.piece_type = PieceType.Queen ∨ piece.piece_type = PieceType.Rook) ∧
                (pos.rank = enemyKingPos.rank ∨ pos.file = enemyKingPos.file) then
              300
            else 0)
      | none => 0
  | EndgameType.PawnOnly =>
      if piece.piece_type = PieceType.King then
        evaluate_king_pawn_endgame b pos piece.color
      else if piece.piece_type = PieceType.Pawn then
        evaluate_passed_pawn b pos piece.color
      else 0
  | _ =>
      ((b.get_valid_moves pos).length : Int) * get_mobility_bonus piece.piece_type

/-- `find_queen_mate_position`: permanently stubbed to `None` in the
source ("Placeholder"). -/
def find_queen_mate_position (_b : Board) : Option (Position × Position × Position) :=
  none

/-- `find_rook_mate_position`: permanently stubbed to `None` in the
source. -/
def find_rook_mate_position (_b : Board) : Option (Position × Position × Position) :=
  none

/-- `find_bishop_knight_mate_position`: stubbed to `None` in the source. -/
def find_bishop_knight_mate_position (_b : Board) :
    Option (Position × Position × Position × Position) :=
  none

/-- `find_two_bishops_mate_position`: stubbed to `None` in the source. -/
def find_two_bishops_mate_position (_b : Board) :
    Option (Position × Position × Position × Position) :=
  none

/-- `evaluate_queen_endgame`. -/
def evaluate_queen_endgame (b : Board) (score : Int) : Int :=
  match find_queen_mate_position b with
  | some (queenPos, kingPos, enemyKingPos) =>
      let queenToEnemy := manhattan_distance queenPos enemyKingPos
      let kingToEnemy := manhattan_distance kingPos enemyKingPos
      score + 2000 + (14 - queenToEnemy) * 150 + (14 - kingToEnemy) * 100 +
        (8 - distance_to_edge enemyKingPos) * 200
  | none => score

/-- `evaluate_rook_endgame`. -/
def evaluate_rook_endgame (b : Board) (score : Int) : Int :=
  match find_rook_mate_position b with
  | some (rookPos, kingPos, enemyKingPos) =>
      let base := score + 1500
      if distance_to_edge enemyKingPos ≤ 1 then
        base + 500 +
          (if rookPos.rank = enemyKingPos.rank then 300 else 0) +
          (if manhattan_distance kingPos enemyKingPos ≤ 2 then 400 else 0)
      else base
  | none => score

/-- `evaluate_bishop_knight_mate`. -/
def evaluate_bishop_knight_mate (b : Board) (score : Int) : Int :=
  match find_bishop_knight_mate_position b with
  | some (bishopPos, knightPos, kingPos, enemyKingPos) =>
      score + 1000 +
        (14 - manhattan_distance bishopPos enemyKingPos) * 100 +
        (14 - manhattan_distance knightPos enemyKingPos) * 100 +
        (14 - manhattan_distance kingPos enemyKingPos) * 80 +
        (8 - distance_to_corner enemyKingPos) * 150
  | none => score

/-- `evaluate_two_bishops_mate`. -/
def evaluate_two_bishops_mate (b : Board) (score : Int) : Int :=
  match find_two_bishops_mate_position b with
  | some (bishop1Pos, bishop2Pos, kingPos, enemyKingPos) =>
      score + 1200 +
        (14 - manhattan_distance bishop1Pos enemyKingPos) * 100 +
        (14 - manhattan_distance bishop2Pos enemyKingPos) * 100 +
        (14 - manhattan_distance kingPos enemyKingPos) * 80 +
        (8 - distance_to_edge enemyKingPos) * 150
  | none => score

/-- `evaluate_pawn_endgame`. -/
def evaluate_pawn_endgame (b : Board) (score : Int) : Int :=
  squares.foldl
    (fun acc pos =>
      match b.get_piece pos with
      | some piece =>
          if piece.piece_type = PieceType.Pawn ∧ is_passed_pawn b pos piece.color then
            let rankProgress : Nat :=
              if piece.color = Color.White then pos.rank else 9 - pos.rank
            acc + 200 * (rankProgress : Int)
          else acc
      | none => acc)
    score

/-- `is_endgame_phase`. -/
def is_endgame_phase (b : Board) : Bool :=
  let counts :=
    squares.foldl
      (fun (acc : Nat × Int) pos =>
        match b.get_piece pos with
        | some piece =>
            match piece.piece_type with
            | PieceType.Queen => (acc.1 + 1, acc.2)
            | PieceType.Rook => (acc.1, acc.2 + 5)
            | PieceType.Bishop => (acc.1, acc.2 + 3)
            | PieceType.Knight => (acc.1, acc.2 + 3)
            | PieceType.Pawn => (acc.1, acc.2 + 1)
            | PieceType.King => acc
        | none => acc)
      (0, 0)
  let queens := counts.1
  let totalMaterial := counts.2
  queens = 0 ∨ (queens = 1 ∧ totalMaterial ≤ 13) ∨ (queens = 2 ∧ totalMaterial ≤ 6)

/-- `is_rank_cut_off`. -/
def is_rank_cut_off (b : Board) (rank : Nat) (kingFile : Nat)
    (attackingColor : Color) : Bool :=
  ((List.range 8).map (· + 1)).any fun file =>
    (file ≠ kingFile : Bool) &&
    match b.get_piece ⟨rank, file⟩ with
    | some piece =>
        piece.color = attackingColor ∧
        (piece.piece_type = PieceType.Queen ∨ piece.piece_type = PieceType.Rook)
    | none => false

/-- `is_file_cut_off`. -/
def is_file_cut_off (b : Board) (kingRank : Nat) (file : Nat)
    (attackingColor : Color) : Bool :=
  ((List.range 8).map (· + 1)).any fun rank =>
    (rank ≠ kingRank : Bool) &&
    match b.get_piece ⟨rank, file⟩ with
    | some piece =>
        piece.color = attackingColor ∧
        (piece.piece_type = PieceType.Queen ∨ piece.piece_type = PieceType.Rook)
    | none => false

/-- `is_back_rank_trapped`. -/
def is_back_rank_trapped (b : Board) (kingPos : Position)
    (attackingColor : Color) : Bool :=
  let pawnRank : Nat := if attackingColor = Color.White then 7 else 2
  (([-1, 0, 1] : List Int).filter fun off =>
      1 ≤ (kingPos.file : Int) + off ∧ (kingPos.file : Int) + off ≤ 8).all
    fun off =>
      match b.get_piece ⟨pawnRank, ((kingPos.file : Int) + off).toNat⟩ with
      | some piece =>
          piece.piece_type = PieceType.Pawn ∧ piece.color ≠ attackingColor
      | none => false

end ChessEval

namespace ChessEval

open ChessCore

/-- Accumulator of the king-tropism loop of `adjust_endgame_score`. -/
structure TropismState where
  score : Int
  hasQueen : Bool
  hasRook : Bool
  closestQueenDistance : Int
  closestRookDistance : Int

/-- `adjust_endgame_score`.  The source computes the corner distance as
`((4.5 - rank as f32).abs() + (4.5 - file as f32).abs()) as i32`; both
summands are half-odd integers whose sum is an exact small integer, so the
`f32` arithmetic and the truncating cast are exact and the expression
equals `(|9 - 2*rank| + |9 - 2*file|) / 2`. -/
def adjust_endgame_score (b : Board) (score : Int) : Int :=
  let currentColor := b.current_turn
  let enemyKingPos :=
    squares.find? fun pos =>
      match b.get_piece pos with
      | some piece => piece.piece_type = PieceType.King ∧ piece.color ≠ currentColor
      | none => false
  match enemyKingPos with
  | none => score
  | some enemyKing =>
      let cornerDistance : Int :=
        (((9 - 2 * (enemyKing.rank : Int)).natAbs +
            (9 - 2 * (enemyKing.file : Int)).natAbs : Nat) : Int) / 2
      let s1 := score + cornerDistance * 300
      let enemyKingMoves := b.get_valid_moves enemyKing
      let s2 := s1 + (8 - (enemyKingMoves.length : Int)) * 200
      let cutOffBonus :=
        (([-1, 0, 1] : List Int)).foldl
          (fun acc off =>
            let checkRank := (enemyKing.rank : Int) + off
            let acc1 :=
              if 1 ≤ checkRank ∧ checkRank ≤ 8 then
                if is_rank_cut_off b checkRank.toNat enemyKing.file currentColor then
                  acc + 500
                else acc
              else acc
            let checkFile := (enemyKing.file : Int) + off
            if 1 ≤ checkFile ∧ checkFile ≤ 8 then
              if is_file_cut_off b enemyKing.rank checkFile.toNat currentColor then
                acc1 + 500
              else acc1
            else acc1)
          0
      let s3 := s2 + cutOffBonus
      let st :=
        squares.foldl
          (fun (st : TropismState) pos =>
            match b.get_piece pos with
            | some piece =>
                if piece.color = currentColor then
                  let distance : Int :=
                    ((enemyKing.rank : Int) - (pos.rank : Int)).natAbs +
                      ((enemyKing.file : Int) - (pos.file : Int)).natAbs
                  match piece.piece_type with
                  | PieceType.Queen =>
                      { st with
                        score := st.score + (8 - distance) * 400 +
                          (if distance ≤ 2 ∧ enemyKingMoves.length ≤ 3 then 1000 else 0),
                        hasQueen := true,
                        closestQueenDistance := min st.closestQueenDistance distance }
                  | PieceType.Rook =>
                      { st with
                        score := st.score + (8 - distance) * 300 +
                          (if (pos.rank = enemyKing.rank ∨ pos.file = enemyKing.file) ∧
                              distance = 2 then 600 else 0),
                        hasRook := true,
                        closestRookDistance := min st.closestRookDistance distance }
                  | _ => { st with score := st.score + (8 - distance) * 150 }
                else st
            | none => st)
          ⟨s3, false, false, 100, 100⟩
      let s4 := st.score +
        (if st.hasQueen ∧ st.hasRook ∧ st.closestQueenDistance ≤ 3 ∧
            st.closestRookDistance ≤ 3 then 300 else 0)
      let backRank : Nat := if currentColor = Color.White then 8 else 1
      if enemyKing.rank = backRank then
        s4 + 800 + (if is_back_rank_trapped b enemyKing currentColor then 1000 else 0)
      else s4

/-- `evaluate_mating_patterns`. -/
def evaluate_mating_patterns (b : Board) : Option Int :=
  let currentColor := b.current_turn
  let enemyKingPos :=
    squares.find? fun pos =>
      match b.get_piece pos with
      | some piece => piece.piece_type = PieceType.King ∧ piece.color ≠ currentColor
      | none => false
  match enemyKingPos with
  | none => none
  | some kingPos =>
      let p1 : Int × Bool :=
        if distance_to_edge kingPos = 0 then
          if (b.get_valid_moves kingPos).length ≤ 2 then
            (CHECKMATE_HORIZON / 2, true)
          else (0, false)
        else (0, false)
      let p2 : Int × Bool :=
        if is_back_rank_trapped b kingPos currentColor then
          (p1.1 + CHECKMATE_HORIZON / 3, true)
        else p1
      let qr :=
        squares.foldl
          (fun (acc : Bool × Bool × Nat) pos =>
            match b.get_piece pos with
            | some piece =>
                if piece.color = currentColor then
                  match piece.piece_type with
                  | PieceType.Queen => (true, acc.2.1, acc.2.2 + 1)
                  | PieceType.Rook => (acc.1, true, acc.2.2 + 1)
                  | _ => acc
                else acc
            | none => acc)
          (false, false, 0)
      let p3 : Int × Bool :=
        if qr.1 ∧ qr.2.1 ∧ qr.2.2 ≥ 2 ∧ (b.get_valid_moves kingPos).length ≤ 3 then
          (p2.1 + CHECKMATE_HORIZON, true)
        else p2
      if p3.2 then some p3.1 else none

/-- `evaluate_position` from `evaluation.rs`: the public evaluator.  The
per-piece value table calls `is_endgame_phase` once per piece; the function
is pure, so it is hoisted into a single `let`. -/
def evaluate_position (b : Board) : Int :=
  if b.is_checkmate then -CHECKMATE_SCORE
  else
    let opponentColor :=
      if b.current_turn = Color.White then Color.Black else Color.White
    let isCheck := b.is_in_check opponentColor
    let endgameType := detect_endgame_type b
    let phase := is_endgame_phase b
    let score0 :=
      squares.foldl
        (fun acc pos =>
          match b.get_piece pos with
          | some piece =>
              let pieceValue :=
                match endgameType with
                | EndgameType.PawnOnly => get_pawn_endgame_value piece.piece_type
                | EndgameType.KQvsK | EndgameType.KRvsK | EndgameType.KBNvsK =>
                    get_mating_piece_value piece.piece_type endgameType
                | _ =>
                    if phase then get_endgame_piece_value piece.piece_type
                    else get_piece_value piece.piece_type
              let pieceScore := pieceValue + evaluate_piece_endgame b pos piece endgameType
              if piece.color = Color.White then acc + pieceScore else acc - pieceScore
          | none => acc)
        0
    let score1 :=
      match endgameType with
      | EndgameType.KQvsK => evaluate_queen_endgame b score0
      | EndgameType.KRvsK => evaluate_rook_endgame b score0
      | EndgameType.KBNvsK => evaluate_bishop_knight_mate b score0
      | EndgameType.TwoBishops => evaluate_two_bishops_mate b score0
      | EndgameType.PawnOnly => evaluate_pawn_endgame b score0
      | EndgameType.Normal => if phase then adjust_endgame_score b score0 else score0
    let score2 :=
      if isCheck then
        score1 + 50 +
          (match evaluate_mating_patterns b with
            | some mateScore => mateScore
            | none => 0)
      else score1
    if b.current_turn = Color.White then score2 else -score2

end ChessEval

namespace ChessSearch

open ChessCore

/-- `MAX_DEPTH` from `search.rs`. -/
def MAX_DEPTH : Nat := 15

/-- `MATE_SCORE` from `search.rs`. -/
def MATE_SCORE : Int := 20000

/-- `ALPHA_INIT` from `search.rs`. -/
def ALPHA_INIT : Int := -19000

/-- `QUIESCENCE_DEPTH` from `search.rs` (the depth the recursive search
passes to quiescence). -/
def QUIESCENCE_DEPTH : Nat := 6

/-- `DELTA_MARGIN` from `search.rs`. -/
def DELTA_MARGIN : Int := 200

/-- `REDUCTION_LIMIT` from `search.rs`. -/
def REDUCTION_LIMIT : Nat := 3

/-- `FULL_DEPTH_MOVES` from `search.rs`. -/
def FULL_DEPTH_MOVES : Nat := 4

/-- `MAX_TT_SIZE` from `search.rs`. -/
def MAX_TT_SIZE : Nat := 1000000

/-- `WINDOW_SIZE_INIT` from `search.rs`. -/
def WINDOW_SIZE_INIT : Int := 100

/-- `PV_MOVE_SCORE` from `search.rs`. -/
def PV_MOVE_SCORE : Int := 20000

/-- `CAPTURE_SCORE_BASE` from `search.rs`. -/
def CAPTURE_SCORE_BASE : Int := 10000

/-- `KILLER_MOVE_SCORE` from `search.rs`. -/
def KILLER_MOVE_SCORE : Int := 9000

/-- `COUNTER_MOVE_SCORE` from `search.rs`. -/
def COUNTER_MOVE_SCORE : Int := 8000

/-- `HISTORY_SCORE_MAX` from `search.rs`. -/
def HISTORY_SCORE_MAX : Int := 8000

/-- `i32` saturation bounds used by the `saturating_*` calls in the
driver. -/
def I32_MIN : Int := -2147483648

/-- Upper `i32` bound. -/
def I32_MAX : Int := 2147483647

/-- Clamp to the `i32` range. -/
def satClamp (x : Int) : Int := max I32_MIN (min I32_MAX x)

/-- `i32::saturating_add`. -/
def satAdd (a b : Int) : Int := satClamp (a + b)

/-- `i32::saturating_sub`. -/
def satSub (a b : Int) : Int := satClamp (a - b)

/-- `i32::saturating_mul`. -/
def satMul (a b : Int) : Int := satClamp (a * b)

/-- `i32::saturating_div` (Rust `/` on `i32` truncates toward zero, which
is `Int.tdiv`). -/
def satDiv (a b : Int) : Int := satClamp (Int.tdiv a b)

/-- `EntryType` from `search.rs`. -/
inductive EntryType where
  | Exact
  | LowerBound
  | UpperBound
deriving DecidableEq, Repr

/-- `TTEntry` from `search.rs`. -/
structure TTEntry where
  depth : Nat
  score : Int
  entry_type : EntryType
  best_move : Option Move
deriving DecidableEq, Repr

/-- The transposition table `HashMap<String, TTEntry>`, as an association
list on the very `String` keys the source builds. -/
def TT := List (String × TTEntry)
deriving DecidableEq

/-- `HashMap::get` on the transposition table. -/
def ttGet : TT → String → Option TTEntry
  | [], _ => none
  | (k, e) :: rest, key => if k = key then some e else ttGet rest key

/-- `HashMap::insert` on the transposition table (replace in place or
append; lookups agree with a real hash map). -/
def ttInsert : TT → String → TTEntry → TT
  | [], key, e => [(key, e)]
  | (k, e0) :: rest, key, e =>
      if k = key then (k, e) :: rest else (k, e0) :: ttInsert rest key e

/-- The `{:?}` Debug rendering of a piece kind, as used in
`get_position_key`. -/
def pieceTypeName : PieceType → String
  | PieceType.Pawn => "Pawn"
  | PieceType.Knight => "Knight"
  | PieceType.Bishop => "Bishop"
  | PieceType.Rook => "Rook"
  | PieceType.Queen => "Queen"
  | PieceType.King => "King"

/-- The `{:?}` Debug rendering of a colour. -/
def colorName : Color → String
  | Color.White => "White"
  | Color.Black => "Black"

/-- `get_position_key` from `search.rs`. -/
def get_position_key (b : Board) : String :=
  (squares.foldl
    (fun s pos =>
      match b.get_piece pos with
      | some piece =>
          s ++ toString pos.rank ++ toString pos.file ++ ":" ++
            pieceTypeName piece.piece_type ++ colorName piece.color ++ ","
      | none => s)
    "") ++ "turn:" ++ colorName b.current_turn

/-- `MoveKey` from `search.rs`. -/
structure MoveKey where
  from_rank : Nat
  from_file : Nat
  to_rank : Nat
  to_file : Nat
deriving DecidableEq, Repr

/-- `MoveKey::from(Move)`. -/
def MoveKey.ofMove (mv : Move) : MoveKey :=
  ⟨mv.fromSq.rank, mv.fromSq.file, mv.toSq.rank, mv.toSq.file⟩

/-- The `static` `KILLER_MOVES` table.  Its only writers
(`update_history_tables`, `update_killer_moves`) are never called anywhere
in the repository, so it keeps its initial value
`vec![[None, None]; MAX_DEPTH]`. -/
def KILLER_MOVES_table : List (Option Move × Option Move) :=
  List.replicate MAX_DEPTH (none, none)

/-- The `static` `COUNTER_MOVES` map; no writer is ever called, so it stays
empty. -/
def COUNTER_MOVES_table : List (MoveKey × Move) := []

/-- Lookup in the (empty) counter-move map. -/
def counterGet : List (MoveKey × Move) → MoveKey → Option Move
  | [], _ => none
  | (k, m) :: rest, key => if k = key then some m else counterGet rest key

/-- The `static` `HISTORY_TABLE` (64×64 zeros); no writer is ever called.
This is distinct from the *local* history table the driver threads through
`principal_variation_search`. -/
def HISTORY_TABLE_static : Nat → Nat → Int := fun _ _ => 0

/-- The local history table (`vec![vec![0; 64]; 64]` in the driver),
modelled as a function from the two square indices. -/
def Hist := Nat → Nat → Int

/-- Fresh all-zero local history table. -/
def histInit : Hist := fun _ _ => 0

/-- `(rank - 1) * 8 + (file - 1)`, the square index used by the history
tables. -/
def squareIndex (pos : Position) : Nat := (pos.rank - 1) * 8 + (pos.file - 1)

/-- `get_piece_value` from `search.rs` (the small 1/3/3/5/9/0 table; the
evaluator has its own, different `get_piece_value`). -/
def get_piece_value : PieceType → Int
  | PieceType.Pawn => 1
  | PieceType.Knight => 3
  | PieceType.Bishop => 3
  | PieceType.Rook => 5
  | PieceType.Queen => 9
  | PieceType.King => 0

/-- `get_piece_static_value` from `search.rs`. -/
def get_piece_static_value : PieceType → Int
  | PieceType.Pawn => 100
  | PieceType.Knight => 325
  | PieceType.Bishop => 325
  | PieceType.Rook => 500
  | PieceType.Queen => 900
  | PieceType.King => 20000

/-- `mvv_lva_score` from `search.rs`. -/
def mvv_lva_score (victim attacker : PieceType) : Int :=
  let victimValue := get_piece_value victim
  let attackerValue := get_piece_value attacker
  victimValue * 100 - attackerValue * 10

/-- `static_exchange_evaluation` from `search.rs`. -/
def static_exchange_evaluation (b : Board) (mv : Move) : Int :=
  match b.get_piece mv.toSq, b.get_piece mv.fromSq with
  | some victim, some attacker =>
      get_piece_static_value victim.piece_type -
        get_piece_static_value attacker.piece_type
  | _, _ => 0

/-- `get_mvv_lva_score` from `search.rs`.  (Its mobility bonus asks for the
valid moves of the square being captured, which hosts an opponent piece, so
`get_valid_moves` makes it 0; the call is kept verbatim.) -/
def get_mvv_lva_score (b : Board) (mv : Move) : Int :=
  match b.get_piece mv.toSq, b.get_piece mv.fromSq with
  | some victim, some attacker =>
      let mobilityBonus := ((b.get_valid_moves mv.toSq).length : Int) * 5
      get_piece_static_value victim.piece_type * 100 -
        get_piece_static_value attacker.piece_type * 10 + mobilityBonus
  | _, _ => 0

/-- `is_piece_hanging` from `search.rs`. -/
def is_piece_hanging (b : Board) (pos : Position) : Bool :=
  match b.get_piece pos with
  | some piece =>
      let pieceValue := get_piece_value piece.piece_type
      let minAttackerValue :=
        squares.foldl
          (fun acc attackPos =>
            match b.get_piece attackPos with
            | some attacker =>
                if attacker.color ≠ piece.color ∧
                    (b.get_valid_moves attackPos).any (fun m => m.toSq = pos) then
                  min acc (get_piece_value attacker.piece_type)
                else acc
            | none => acc)
          I32_MAX
      minAttackerValue < pieceValue
  | none => false

/-- `is_capture` from `search.rs`. -/
def is_capture (b : Board) (mv : Move) : Bool :=
  (b.get_piece mv.toSq).isSome

/-- `adjust_mate_score` from `search.rs`. -/
def adjust_mate_score (score : Int) (depth : Nat) : Int :=
  if score > MATE_SCORE - 1000 then score - (depth : Int)
  else if score < -MATE_SCORE + 1000 then score + (depth : Int)
  else score

/-- `update_history` from `search.rs` (the beta-cutoff bonus on the local
history table; `bonus` receives the node's depth). -/
def update_history (hist : Hist) (mv : Move) (bonus : Nat) : Hist :=
  let fi := squareIndex mv.fromSq
  let ti := squareIndex mv.toSq
  let h1 : Hist := fun i j => if i = fi ∧ j = ti then hist i j + (bonus : Int) else hist i j
  if h1 fi ti > HISTORY_SCORE_MAX then fun i j => Int.tdiv (h1 i j) 2 else h1

/-- `is_endgame_or_in_check` from `search.rs`.  Note its "king attacked"
scan asks `get_valid_moves` for the *opponent's* pieces, which always
returns the empty list (see `get_valid_moves_opponent`), so the scan can
never set the flag; it is embedded verbatim anyway. -/
def is_endgame_or_in_check (b : Board) : Bool :=
  let currentColor := b.current_turn
  let st :=
    squares.foldl
      (fun (st : Nat × Nat × Bool) pos =>
        match b.get_piece pos with
        | some piece =>
            match piece.piece_type with
            | PieceType.Queen => (st.1 + 1, st.2.1, st.2.2)
            | PieceType.Rook => (st.1, st.2.1 + 1, st.2.2)
            | PieceType.Bishop => (st.1, st.2.1 + 1, st.2.2)
            | PieceType.Knight => (st.1, st.2.1 + 1, st.2.2)
            | PieceType.King =>
                if piece.color = currentColor then
                  (st.1, st.2.1,
                    st.2.2 ||
                      squares.any fun attackPos =>
                        match b.get_piece attackPos with
                        | some attacker =>
                            attacker.color ≠ currentColor ∧
                              (b.get_valid_moves attackPos).any fun m => m.toSq = pos
                        | none => false)
                else st
            | PieceType.Pawn => st
        | none => st)
      (0, 0, false)
  let queens := st.1
  let pieces := st.2.1
  let kingAttacked := st.2.2
  (queens = 0 ∨ (queens = 2 ∧ pieces ≤ 2)) ∨ kingAttacked

/-- The move-generation scan shared verbatim by the driver
(`search_best_move`, lines 159-166) and `generate_ordered_moves` (lines
533-540): all `get_valid_moves` of the side to move, in the rank-major
square order. -/
def rootMoves (b : Board) : List Move :=
  squares.flatMap fun pos =>
    match b.get_piece pos with
    | some piece =>
        if piece.color = b.current_turn then b.get_valid_moves pos else []
    | none => []

/-- `find_obvious_move` from `search.rs`.  The source `unwrap`s the
attacker of each generated move; generated moves always have one, and the
impossible case falls through. -/
def find_obvious_move (b : Board) : List Move → Option Move
  | [] => none
  | mv :: rest =>
      match b.get_piece mv.toSq with
      | some victim =>
          match b.get_piece mv.fromSq with
          | some attacker =>
              if get_piece_value victim.piece_type >
                  get_piece_value attacker.piece_type then
                match b.make_move mv with
                | Except.ok newBoard =>
                    if ¬ is_piece_hanging newBoard mv.toSq then some mv
                    else find_obvious_move b rest
                | Except.error _ => find_obvious_move b rest
              else find_obvious_move b rest
          | none => find_obvious_move b rest
      | none => find_obvious_move b rest

/-- `generate_captures` from `search.rs`. -/
def generate_captures (b : Board) : List Move :=
  squares.flatMap fun pos =>
    match b.get_piece pos with
    | some piece =>
        if piece.color = b.current_turn then
          (b.get_valid_moves pos).filter fun mv => (b.get_piece mv.toSq).isSome
        else []
    | none => []

/-- `(searched_moves as f32).ln().floor() as u8`.  For every count that can
occur (1 to a few thousand), `ln n` in `f32` is far from any integer, so
the floor equals the exact real floor, given by the powers of `e`
(`e ≈ 2.718`, `e² ≈ 7.389`, `e³ ≈ 20.09`, `e⁴ ≈ 54.6`, `e⁵ ≈ 148.4`,
`e⁶ ≈ 403.4`, `e⁷ ≈ 1096.6`, `e⁸ ≈ 2981.0`, `e⁹ ≈ 8103.1`). -/
def lnFloorNat (n : Nat) : Nat :=
  if n < 3 then 0
  else if n < 8 then 1
  else if n < 21 then 2
  else if n < 55 then 3
  else if n < 149 then 4
  else if n < 404 then 5
  else if n < 1097 then 6
  else if n < 2981 then 7
  else if n < 8104 then 8
  else 9

/-- Stable insertion sort on a boolean "less or equal" comparison.  Rust's
`sort_by_key` / `sort_by_cached_key` are stable sorts, and a stable sort's
output is uniquely determined by the key order of the input, so any stable
sort (insertion sort here, structurally recursive so that the kernel can
evaluate it) produces the identical list. -/
def orderedInsertB {a : Type} (le : a → a → Bool) (x : a) : List a → List a
  | [] => [x]
  | y :: l => if le x y then x :: y :: l else y :: orderedInsertB le x l

/-- Stable insertion sort (see `orderedInsertB`). -/
def insertionSortB {a : Type} (le : a → a → Bool) : List a → List a
  | [] => []
  | x :: l => orderedInsertB le x (insertionSortB le l)

/-- The per-move priority score of `generate_ordered_moves` (lines
547-601), reading the never-written static killer / counter / history
tables at their initial values. -/
def orderScore (b : Board) (ttMove : Option Move) (depth : Nat)
    (prevMove : Option Move) (mv : Move) : Int :=
  let s0 : Int :=
    match ttMove with
    | some ttMv => if ttMv = mv then PV_MOVE_SCORE else 0
    | none => 0
  let s1 : Int :=
    match b.get_piece mv.toSq with
    | some victim =>
        match b.get_piece mv.fromSq with
        | some attacker =>
            let seeScore := static_exchange_evaluation b mv
            CAPTURE_SCORE_BASE +
              mvv_lva_score victim.piece_type attacker.piece_type +
              (if seeScore > 0 then seeScore * 100 else 0)
        | none => 0
    | none => 0
  let s2 : Int :=
    match KILLER_MOVES_table.get? depth with
    | some killers =>
        if killers.1 = some mv then KILLER_MOVE_SCORE
        else if killers.2 = some mv then KILLER_MOVE_SCORE - 100
        else 0
    | none => 0
  let s3 : Int :=
    match prevMove with
    | some prev =>
        if counterGet COUNTER_MOVES_table (MoveKey.ofMove prev) = some mv then
          COUNTER_MOVE_SCORE
        else 0
    | none => 0
  let s4 : Int :=
    min (HISTORY_TABLE_static (squareIndex mv.fromSq) (squareIndex mv.toSq))
      HISTORY_SCORE_MAX
  s0 + s1 + s2 + s3 + s4

/-- `generate_ordered_moves` from `search.rs`: generate (same scan as the
driver), score, and stable-sort by descending score (`sort_by_key` is
stable). -/
def generate_ordered_moves (b : Board) (ttMove : Option Move) (depth : Nat)
    (prevMove : Option Move) : List Move :=
  let moves := rootMoves b
  if moves.isEmpty then moves
  else
    let scored := moves.map fun mv => (mv, orderScore b ttMove depth prevMove mv)
    (insertionSortB (fun x y => y.2 ≤ x.2) scored).map (·.1)

end ChessSearch

namespace ChessSearch

open ChessCore


/-- A node's result in `principal_variation_search`: the score and the
threaded mutable state (transposition table, local history table, principal
variation). -/
structure PvsOut where
  score : Int
  tt : TT
  hist : Hist
  pv : List Move

/-- The accumulator of the move loop of `principal_variation_search`. -/
structure LoopState where
  searched : Nat
  hasLegal : Bool
  bestScore : Int
  bestMove : Option Move
  curAlpha : Int
  tt : TT
  hist : Hist
  pv : List Move

/-- The transposition-table consultation of `principal_variation_search`
(lines 308-323), factored out of the node body: given the entry found for
the node's key, the node's remaining depth, its window and whether it is a
principal-variation node, return the early-return score (if any) and the
possibly-raised alpha. -/
def ttProbe (entry : TTEntry) (depth : Nat) (alpha beta : Int)
    (isPv : Bool) : Option Int × Int :=
  if entry.depth ≥ depth ∧ ¬ isPv then
    let score := adjust_mate_score entry.score depth
    match entry.entry_type with
    | EntryType.Exact => (some score, alpha)
    | EntryType.LowerBound =>
        let a := max alpha score
        if a ≥ beta then (some score, a) else (none, a)
    | EntryType.UpperBound =>
        if score ≤ alpha then (some score, alpha)
        else if alpha ≥ beta then (some score, alpha)
        else (none, alpha)
  else (none, alpha)

/-- The `for capture in captures` loop of `quiescence_search` (lines
506-521), abstracted over the one-level-deeper quiescence call `child`
(which receives the new board and the negated, swapped bounds).  The
`break` on `alpha >= beta` returns the final `alpha`, as the source
does. -/
def qsLoopGen (child : Board → Int → Int → Int) (stop : Bool) (b : Board)
    (beta : Int) : List Move → Int → Int
  | [], alpha => alpha
  | capture :: rest, alpha =>
      if stop then alpha
      else
        match b.make_move capture with
        | Except.ok newBoard =>
            let score := -(child newBoard (-beta) (-alpha))
            let alpha1 := max alpha score
            if alpha1 ≥ beta then alpha1
            else qsLoopGen child stop b beta rest alpha1
        | Except.error _ => qsLoopGen child stop b beta rest alpha

/-- `quiescence_search` from `search.rs`: stand-pat, terminal and window
checks, then the sorted and SEE-filtered capture loop.  Structurally
recursive on the quiescence depth (placed first so the kernel can evaluate
it); at depth 0 the function returns the stand-pat score before any of the
later checks, exactly as the source's `depth == 0` test does. -/
def quiescence (stop : Bool) : Nat → Board → Int → Int → Int
  | 0, b, _alpha, _beta =>
      if stop then ChessEval.evaluate_position b
      else ChessEval.evaluate_position b
  | d + 1, b, alpha, beta =>
      if stop then ChessEval.evaluate_position b
      else
        let standPat := ChessEval.evaluate_position b
        if b.is_checkmate || b.is_stalemate then standPat
        else if standPat ≥ beta then beta
        else if standPat < alpha - DELTA_MARGIN then alpha
        else
          let alpha1 := max alpha standPat
          let captures := generate_captures b
          if captures.isEmpty then standPat
          else
            let sorted := insertionSortB
              (fun m1 m2 =>
                -(static_exchange_evaluation b m1 * 1000 + get_mvv_lva_score b m1) ≤
                  -(static_exchange_evaluation b m2 * 1000 + get_mvv_lva_score b m2))
              captures
            let kept := sorted.filter fun m => static_exchange_evaluation b m ≥ -50
            qsLoopGen (fun nb a2 b2 => quiescence stop d nb a2 b2) stop b beta
              kept alpha1

/-- The `for mv in moves` loop of `principal_variation_search` (lines
335-414), abstracted over the child search `child`, indexed by the child's
remaining depth: the first legal move and re-searches run at depth `d`
(the node depth minus one), the reduced null-window searches at
`d - reduction`.  The `break` on `current_alpha >= beta` stops the
iteration after the history update. -/
def pvsLoopGen
    (child : Nat → Board → Int → Int → TT → Hist → List Move → Bool →
      Option Move → PvsOut)
    (stop : Bool) (b : Board) (d : Nat) (beta : Int) (isPv : Bool) :
    List Move → LoopState → LoopState
  | [], st => st
  | mv :: rest, st =>
      match b.make_move mv with
      | Except.error _ => pvsLoopGen child stop b d beta isPv rest st
      | Except.ok newBoard =>
          let searched := st.searched + 1
          let next : Int × TT × Hist × List Move :=
            if searched = 1 then
              let r := child d newBoard (-beta) (-st.curAlpha) st.tt st.hist
                st.pv isPv (some mv)
              (-r.score, r.tt, r.hist, r.pv)
            else
              let reduction :=
                if d + 1 ≥ REDUCTION_LIMIT ∧ searched > FULL_DEPTH_MOVES then
                  min (lnFloorNat searched) d
                else 0
              let r1 := child (d - reduction) newBoard (-(st.curAlpha + 1))
                (-st.curAlpha) st.tt st.hist st.pv false (some mv)
              let s1 := -r1.score
              if s1 > st.curAlpha ∧ s1 < beta then
                let r2 := child d newBoard (-beta) (-st.curAlpha) r1.tt
                  r1.hist r1.pv isPv (some mv)
                (-r2.score, r2.tt, r2.hist, r2.pv)
              else (s1, r1.tt, r1.hist, r1.pv)
          let score := next.1
          let tt1 := next.2.1
          let hist1 := next.2.2.1
          let pv1 := next.2.2.2
          let upd : Int × Option Move × Int × List Move :=
            if score > st.bestScore then
              if score > st.curAlpha then
                (score, some mv, score, if isPv then [mv] else pv1)
              else (score, some mv, st.curAlpha, pv1)
            else (st.bestScore, st.bestMove, st.curAlpha, pv1)
          let st1 : LoopState :=
            ⟨searched, true, upd.1, upd.2.1, upd.2.2.1, tt1, hist1, upd.2.2.2⟩
          if st1.curAlpha ≥ beta then
            { st1 with
              hist := if ¬ is_capture b mv then update_history st1.hist mv (d + 1)
                else st1.hist }
          else pvsLoopGen child stop b d beta isPv rest st1

/-- `principal_variation_search` from `search.rs`: cancellation check,
terminal / depth-0 quiescence, transposition-table probe, the ordered move
loop, the no-legal-move terminal score, and the store back into the table.

The source recursion terminates because the remaining depth shrinks at
every child call; here the recursion is made structural (so that the
kernel can evaluate it) on an explicit `fuel` counting the remaining
nesting levels.  Every child call passes `fuel` with a depth at most
`depth - 1`, so the invariant `depth < fuel` is maintained and the
fuel-exhausted branch (whose value is the cancellation value) is
unreachable; `pvsF_fuel_irrelevant` below proves the result does not
depend on the fuel, and `pvs` instantiates `fuel := depth + 1`. -/
def pvsF (stop : Bool) : Nat → Nat → Board → Int → Int → TT → Hist →
    List Move → Bool → Option Move → PvsOut
  | 0, _depth, b, _alpha, _beta, tt, hist, pv, _isPv, _prev =>
      ⟨ChessEval.evaluate_position b, tt, hist, pv⟩
  | fuel + 1, depth, b, alpha, beta, tt, hist, pv, isPv, prev =>
      if stop then ⟨ChessEval.evaluate_position b, tt, hist, pv⟩
      else
        match depth with
        | 0 => ⟨quiescence stop QUIESCENCE_DEPTH b alpha beta, tt, hist, pv⟩
        | d + 1 =>
            if b.is_checkmate || b.is_stalemate then
              ⟨quiescence stop QUIESCENCE_DEPTH b alpha beta, tt, hist, pv⟩
            else
              let posKey := get_position_key b
              let originalAlpha := alpha
              let probed : Option Int × Int × Option Move :=
                match ttGet tt posKey with
                | some entry =>
                    let pr := ttProbe entry (d + 1) alpha beta isPv
                    (pr.1, pr.2, entry.best_move)
                | none => (none, alpha, none)
              match probed.1 with
              | some s => ⟨s, tt, hist, pv⟩
              | none =>
                  let currentAlpha := probed.2.1
                  let bestMove0 := probed.2.2
                  let moves := generate_ordered_moves b bestMove0 (d + 1) prev
                  let st := pvsLoopGen (fun dd nb a2 b2 tt2 h2 pv2 i2 p2 =>
                      pvsF stop fuel dd nb a2 b2 tt2 h2 pv2 i2 p2)
                    stop b d beta isPv moves
                    ⟨0, false, ALPHA_INIT, bestMove0, currentAlpha, tt, hist, pv⟩
                  if ¬ st.hasLegal then
                    ⟨if is_endgame_or_in_check b then
                        -MATE_SCORE + ((d + 1 : Nat) : Int)
                      else 0, st.tt, st.hist, st.pv⟩
                  else
                    let entryType :=
                      if st.bestScore ≤ originalAlpha then EntryType.UpperBound
                      else if st.bestScore ≥ beta then EntryType.LowerBound
                      else EntryType.Exact
                    let tt1 := ttInsert st.tt posKey
                      ⟨d + 1, st.bestScore, entryType, st.bestMove⟩
                    ⟨st.bestScore, tt1, st.hist, st.pv⟩

/-- `principal_variation_search`: `pvsF` with sufficient fuel (see the
`pvsF` doc comment and `pvsF_fuel_irrelevant`). -/
def pvs (stop : Bool) (b : Board) (depth : Nat) (alpha beta : Int) (tt : TT)
    (hist : Hist) (pv : List Move) (isPv : Bool) (prev : Option Move) :
    PvsOut :=
  pvsF stop (depth + 1) depth b alpha beta tt hist pv isPv prev

/-- The result of `search_best_move`: the chosen move, the caller's board
after the call (the source takes `board: &Board`, a shared reference; the
embedding threads the caller's board as explicit state so that the
frame property "the caller's board is unchanged" is a provable statement),
and the global transposition table after the call. -/
structure DriverOut where
  best : Option Move
  board : Board
  tt : TT
deriving DecidableEq

/-- The `for depth in 1..=MAX_DEPTH` iterative-deepening loop of
`search_best_move` (lines 182-242): poll the time oracle (the
`should_continue` check at the top of each iteration), search the depth
inside the aspiration window, re-search with the full window if the score
fell outside, record the head of the principal variation as best move,
stop early on a forced mate, and widen the window.  `fuel` counts the
remaining iterations (initially `MAX_DEPTH`). -/
def idLoop (b : Board) (oracle : Nat → Bool) : Nat → Nat → Option Move →
    Int → Int → TT → Hist → List Move → DriverOut
  | 0, _, best, _, _, tt, _, _ => ⟨best, b, tt⟩
  | fuel + 1, depth, best, bestScore, window, tt, hist, pv =>
      if ¬ oracle (depth - 1) then ⟨best, b, tt⟩
      else
        let alpha := satSub bestScore window
        let beta := satAdd bestScore window
        let r1 := pvs false b depth alpha beta tt hist pv true none
        let r :=
          if r1.score ≤ alpha ∨ r1.score ≥ beta then
            pvs false b depth (-MATE_SCORE) MATE_SCORE r1.tt r1.hist r1.pv
              true none
          else r1
        let bb : Option Move × Int :=
          match r.pv with
          | [] => (best, bestScore)
          | m :: _ => (some m, r.score)
        if (r.score.natAbs : Int) > MATE_SCORE - 100 then ⟨bb.1, b, r.tt⟩
        else
          idLoop b oracle fuel (depth + 1) bb.1 bb.2
            (satDiv (satMul window 5) 4) r.tt r.hist r.pv

/-- `search_best_move` from `search.rs`.  `Duration`-based time management
is abstracted into the poll oracle (see the header); the `total_time` and
`moves_left` arguments only feed the `TimeManager`, i.e. the oracle.  The
global transposition table (locked once for the whole call) is the `tt0`
argument and the table component of the result. -/
def searchBestMove (b : Board) (oracle : Nat → Bool) (tt0 : TT) : DriverOut :=
  let tt := if tt0.length > MAX_TT_SIZE then [] else tt0
  let moves := rootMoves b
  match find_obvious_move b moves with
  | some obvious => ⟨some obvious, b, tt⟩
  | none => idLoop b oracle MAX_DEPTH 1 none ALPHA_INIT WINDOW_SIZE_INIT tt
      histInit []

end ChessSearch

namespace ChessEval

open ChessCore

/-- Modelled from the spec: mirroring a single square.  The spec's
perspective-symmetry property ("evaluating the same position with the
sides/side-to-move mirrored", §4.1/§8) needs a `mirror_sides` map that the
source does not define; it is the standard one: reflect ranks through the
board's horizontal axis. -/
def mirrorPos (p : Position) : Position := ⟨9 - p.rank, p.file⟩

/-- Modelled from the spec: mirroring a move (both squares reflected, kind
and promotion unchanged). -/
def mirrorMove (m : Move) : Move :=
  ⟨mirrorPos m.fromSq, mirrorPos m.toSq, m.move_type, m.promotion⟩

/-- Modelled from the spec: `mirror_sides` — the same position with the
sides and the side to move swapped: every piece moves to its reflected
square with its colour flipped, the turn flips, castling rights swap
colours, and the recorded last move is reflected. -/
def mirror_sides (b : Board) : Board :=
  { pieces := b.pieces.map fun qp =>
      (mirrorPos qp.1, ⟨qp.2.piece_type, qp.2.color.other⟩),
    current_turn := b.current_turn.other,
    castling_rights :=
      ⟨b.castling_rights.black_kingside, b.castling_rights.black_queenside,
        b.castling_rights.white_kingside, b.castling_rights.white_queenside⟩,
    last_move := b.last_move.map mirrorMove }

end ChessEval

namespace ChessExamples

open ChessCore ChessEval ChessSearch

/-- Castling rights with every flag cleared (the concrete positions below
are mid-game positions where castling is long gone). -/
def noRights : CastlingRights := ⟨false, false, false, false⟩

/-- White Ka1 and Qg6 against Black Kh8, Black to move: a classic
stalemate (Black is not in check and has no legal move). -/
def exStale : Board :=
  { pieces := [(⟨1, 1⟩, ⟨PieceType.King, Color.White⟩),
               (⟨6, 7⟩, ⟨PieceType.Queen, Color.White⟩),
               (⟨8, 8⟩, ⟨PieceType.King, Color.Black⟩)],
    current_turn := Color.Black,
    castling_rights := noRights,
    last_move := none }

/-- White Kf7 and Rh1 against Black Kh8, Black to move: checkmate (the
rook checks along the h-file and f7 covers g7/g8). -/
def exMate : Board :=
  { pieces := [(⟨7, 6⟩, ⟨PieceType.King, Color.White⟩),
               (⟨1, 8⟩, ⟨PieceType.Rook, Color.White⟩),
               (⟨8, 8⟩, ⟨PieceType.King, Color.Black⟩)],
    current_turn := Color.Black,
    castling_rights := noRights,
    last_move := none }

/-- White Ra5 and Ke1 against Black Kh5, White to move (Black is in
check): the perspective-symmetry test board for the evaluator. -/
def exC3 : Board :=
  { pieces := [(⟨5, 1⟩, ⟨PieceType.Rook, Color.White⟩),
               (⟨1, 5⟩, ⟨PieceType.King, Color.White⟩),
               (⟨5, 8⟩, ⟨PieceType.King, Color.Black⟩)],
    current_turn := Color.White,
    castling_rights := noRights,
    last_move := none }

/-- A board whose side to move (White) has exactly one generated move, the
quiet pawn push a3-a4: the white king is walled in by its own pieces
(Kh1, Bf1, Ng1, Pe2, Bg2, Ph2, Pf3, Ph3), every other white piece is
blocked by the black pawns e3, f4, h4, and Black (not to move) also has
three kings and three pawns.  Boards are plain data for every function
involved; the extra kings only inflate the material the evaluator sees in
the reply position. -/
def exOneMove : Board :=
  { pieces := [(⟨1, 6⟩, ⟨PieceType.Bishop, Color.White⟩),
               (⟨1, 7⟩, ⟨PieceType.Knight, Color.White⟩),
               (⟨1, 8⟩, ⟨PieceType.King, Color.White⟩),
               (⟨2, 5⟩, ⟨PieceType.Pawn, Color.White⟩),
               (⟨2, 7⟩, ⟨PieceType.Bishop, Color.White⟩),
               (⟨2, 8⟩, ⟨PieceType.Pawn, Color.White⟩),
               (⟨3, 1⟩, ⟨PieceType.Pawn, Color.White⟩),
               (⟨3, 5⟩, ⟨PieceType.Pawn, Color.Black⟩),
               (⟨3, 6⟩, ⟨PieceType.Pawn, Color.White⟩),
               (⟨3, 8⟩, ⟨PieceType.Pawn, Color.White⟩),
               (⟨4, 6⟩, ⟨PieceType.Pawn, Color.Black⟩),
               (⟨4, 8⟩, ⟨PieceType.Pawn, Color.Black⟩),
               (⟨8, 1⟩, ⟨PieceType.King, Color.Black⟩),
               (⟨8, 3⟩, ⟨PieceType.King, Color.Black⟩),
               (⟨8, 5⟩, ⟨PieceType.King, Color.Black⟩)],
    current_turn := Color.White,
    castling_rights := noRights,
    last_move := none }

/-- The single generated move of `exOneMove`: the pawn push a3-a4. -/
def mvA4 : Move := Move.new ⟨3, 1⟩ ⟨4, 1⟩

/-- A time oracle whose first poll (before depth 1) says "continue" and
whose second poll says "time exhausted" — the behaviour of any finite
budget once the first completed depth consumed it. -/
def oracleOne : Nat → Bool := fun k => k = 0

/-- White Ke1 and Pd4 against Black Qe5 and Ke8, White to move: the pawn
can capture the undefended queen, an "obvious" material-winning,
non-recapturable capture. -/
def exObvious : Board :=
  { pieces := [(⟨1, 5⟩, ⟨PieceType.King, Color.White⟩),
               (⟨4, 4⟩, ⟨PieceType.Pawn, Color.White⟩),
               (⟨5, 5⟩, ⟨PieceType.Queen, Color.Black⟩),
               (⟨8, 5⟩, ⟨PieceType.King, Color.Black⟩)],
    current_turn := Color.White,
    castling_rights := noRights,
    last_move := none }

/-- The obvious capture of `exObvious`: d4 takes e5. -/
def mvObvious : Move := Move.new ⟨4, 4⟩ ⟨5, 5⟩

/-- Bare kings, White Ka1 against Black Kh8, White to move: the smallest
non-terminal position, used to exercise the transposition-table probe. -/
def exKings : Board :=
  { pieces := [(⟨1, 1⟩, ⟨PieceType.King, Color.White⟩),
               (⟨8, 8⟩, ⟨PieceType.King, Color.Black⟩)],
    current_turn := Color.White,
    castling_rights := noRights,
    last_move := none }

/-- A lower-bound transposition-table entry for `exKings` whose stored
score 50 meets the window `[0, 10)` used in the claim-6 counterexample. -/
def ttKings : TT :=
  [(get_position_key exKings, ⟨5, 50, EntryType.LowerBound, none⟩)]

/-- White Ke1 and Re2 against Black Re8 and Kh8, White to move: the white
rook is pinned to its king by the black rook on the e-file. -/
def exPinned : Board :=
  { pieces := [(⟨1, 5⟩, ⟨PieceType.King, Color.White⟩),
               (⟨2, 5⟩, ⟨PieceType.Rook, Color.White⟩),
               (⟨8, 5⟩, ⟨PieceType.Rook, Color.Black⟩),
               (⟨8, 8⟩, ⟨PieceType.King, Color.Black⟩)],
    current_turn := Color.White,
    castling_rights := noRights,
    last_move := none }

/-- The pinned rook's sideways move e2-d2, pseudo-legal but leaving the
white king in check. -/
def mvPinned : Move := Move.new ⟨2, 5⟩ ⟨2, 4⟩

end ChessExamples

namespace ChessSpec

open ChessCore

/-- The five promotion choices a generated move can carry
(`get_valid_moves` emits plain moves and queen/rook/bishop/knight
promotions). -/
def promotionChoices : List (Option PieceType) :=
  [none, some PieceType.Queen, some PieceType.Rook, some PieceType.Bishop,
    some PieceType.Knight]

/-- The formalization of the claims' "the side to move has no legal move":
`make_move` rejects every candidate move — every from/to pair of board
squares with every promotion choice (move kind `Normal`; `make_move` never
reads the kind, and every move the engine generates has these shapes).
Pieces only ever sit on board squares in any board `make_move` itself can
produce, and `Move::is_valid` rejects off-board squares, so candidates
beyond this set are rejected for free. -/
def hasNoLegalMove (b : Board) : Bool :=
  squares.all fun f =>
    squares.all fun t =>
      promotionChoices.all fun pr =>
        ! (b.make_move ⟨f, t, MoveType.Normal, pr⟩).isOk

end ChessSpec

namespace ChessProofs

open ChessCore ChessEval ChessSearch ChessExamples ChessSpec

/-- A checkmated board evaluates to the checkmate sentinel, `-100000`:
`evaluate_position`'s first branch. -/
theorem eval_checkmate (b : Board) (h : b.is_checkmate = true) :
    evaluate_position b = -100000 := by
  simp [evaluate_position, h, CHECKMATE_SCORE]

/-- Quiescence search on a checkmated board returns the stand-pat score,
the checkmate sentinel, at every quiescence depth, window and cancellation
state. -/
theorem quiescence_checkmate (b : Board) (h : b.is_checkmate = true) :
    ∀ (stop : Bool) (qd : Nat) (alpha beta : Int),
      quiescence stop qd b alpha beta = -100000 := by
  intro stop qd alpha beta
  cases qd with
  | zero => cases stop <;> simp [quiescence, eval_checkmate b h]
  | succ d => cases stop <;> simp [quiescence, h, eval_checkmate b h]

/-- On a terminal board (checkmate or stalemate) `principal_variation_search`
returns before touching the transposition table, the history table or the
principal variation. -/
theorem pvs_terminal_state (b : Board)
    (h : (b.is_checkmate || b.is_stalemate) = true) (stop : Bool)
    (depth : Nat) (alpha beta : Int) (tt : TT) (hist : Hist)
    (pv : List Move) (isPv : Bool) (prev : Option Move) :
    (pvs stop b depth alpha beta tt hist pv isPv prev).tt = tt ∧
      (pvs stop b depth alpha beta tt hist pv isPv prev).hist = hist ∧
      (pvs stop b depth alpha beta tt hist pv isPv prev).pv = pv := by
  cases depth <;> cases stop <;> simp [pvs, pvsF, h]

/-- A checkmated node returns the checkmate sentinel at every depth. -/
theorem pvs_checkmate (b : Board) (h : b.is_checkmate = true) (stop : Bool)
    (depth : Nat) (alpha beta : Int) (tt : TT) (hist : Hist)
    (pv : List Move) (isPv : Bool) (prev : Option Move) :
    (pvs stop b depth alpha beta tt hist pv isPv prev).score = -100000 := by
  cases depth <;> cases stop <;>
    simp [pvs, pvsF, h, eval_checkmate b h, quiescence_checkmate b h]

end ChessProofs

namespace ChessProofs

open ChessCore ChessEval ChessSearch ChessExamples ChessSpec

/-- The iterative-deepening loop returns the caller's board unchanged in
the board component, whatever happens inside. -/
theorem idLoop_board (b : Board) (oracle : Nat → Bool) :
    ∀ (fuel depth : Nat) (best : Option Move) (bestScore window : Int)
      (tt : TT) (hist : Hist) (pv : List Move),
      (idLoop b oracle fuel depth best bestScore window tt hist pv).board = b := by
  intro fuel
  induction fuel with
  | zero => intro depth best bestScore window tt hist pv; rfl
  | succ f ih =>
      intro depth best bestScore window tt hist pv
      simp only [idLoop]
      split
      · rfl
      · split <;> split <;> first | rfl | exact ih _ _ _ _ _ _ _

/-- On a terminal board every `principal_variation_search` call leaves the
principal variation empty, so the iterative-deepening loop never updates
its best move. -/
theorem idLoop_terminal_best (b : Board)
    (h : (b.is_checkmate || b.is_stalemate) = true) (oracle : Nat → Bool) :
    ∀ (fuel depth : Nat) (best : Option Move) (bestScore window : Int)
      (tt : TT) (hist : Hist),
      (idLoop b oracle fuel depth best bestScore window tt hist []).best = best := by
  intro fuel
  induction fuel with
  | zero => intro depth best bestScore window tt hist; rfl
  | succ f ih =>
      intro depth best bestScore window tt hist
      simp only [idLoop]
      split
      · rfl
      · obtain ⟨e1, e2, e3⟩ := pvs_terminal_state b h false depth
          (satSub bestScore window) (satAdd bestScore window) tt hist [] true none
        rw [e1, e2, e3]
        split
        · obtain ⟨f1, f2, f3⟩ := pvs_terminal_state b h false depth
            (-MATE_SCORE) MATE_SCORE tt hist [] true none
          rw [f1, f2, f3]
          split
          · rfl
          · exact ih _ _ _ _ _ _
        · rw [e1, e2, e3]
          split
          · rfl
          · exact ih _ _ _ _ _ _

end ChessProofs

namespace ChessProofs

open ChessCore ChessEval ChessSearch ChessExamples ChessSpec

/-- `Except.isOk` means the computation produced a value. -/
theorem exceptOk {e : Type} {a : Type} {x : Except e a} :
    x.isOk = true ↔ ∃ v, x = Except.ok v := by
  cases x <;> simp [Except.isOk, Except.toBool]

/-- If every move of the list is rejected by `make_move`, the obvious-move
scan finds nothing. -/
theorem find_obvious_none (b : Board) :
    ∀ moves : List Move, (∀ m ∈ moves, (b.make_move m).isOk = false) →
      find_obvious_move b moves = none := by
  intro moves
  induction moves with
  | nil => intro _; rfl
  | cons mv rest ih =>
      intro hall
      have htail : ∀ m ∈ rest, (b.make_move m).isOk = false :=
        fun m hm => hall m (List.mem_cons_of_mem _ hm)
      simp only [find_obvious_move]
      cases hto : b.get_piece mv.toSq <;> simp only [hto]
      · exact ih htail
      · cases hfrom : b.get_piece mv.fromSq <;> simp only [hfrom]
        · exact ih htail
        · split
          · cases hmk : b.make_move mv with
            | error e => simp only [hmk]; exact ih htail
            | ok nb =>
                have hmv := hall mv (List.mem_cons_self _ _)
                rw [hmk] at hmv
                simp [Except.isOk, Except.toBool] at hmv
          · exact ih htail

/-- A move returned by the obvious-move scan was accepted by
`make_move`. -/
theorem find_obvious_some (b : Board) :
    ∀ (moves : List Move) (m : Move), find_obvious_move b moves = some m →
      (b.make_move m).isOk = true := by
  intro moves
  induction moves with
  | nil => intro m hm; simp [find_obvious_move] at hm
  | cons mv rest ih =>
      intro m hm
      simp only [find_obvious_move] at hm
      cases hto : b.get_piece mv.toSq <;> simp only [hto] at hm
      · exact ih m hm
      · cases hfrom : b.get_piece mv.fromSq <;> simp only [hfrom] at hm
        · exact ih m hm
        · split at hm
          · cases hmk : b.make_move mv with
            | error e => simp only [hmk] at hm; exact ih m hm
            | ok nb =>
                simp only [hmk] at hm
                split at hm
                · cases hm; rw [hmk]; rfl
                · exact ih m hm
          · exact ih m hm

/-- When the obvious-move scan of the driver finds a move, the driver
returns it at once, with the transposition table untouched apart from the
size-triggered clear. -/
theorem searchBestMove_obvious (b : Board) (oracle : Nat → Bool) (tt0 : TT)
    (m : Move) (hob : find_obvious_move b (rootMoves b) = some m) :
    searchBestMove b oracle tt0 =
      ⟨some m, b, if tt0.length > MAX_TT_SIZE then [] else tt0⟩ := by
  simp only [searchBestMove, hob]

/-- Membership in `squares` is exactly being a board square. -/
theorem mem_squares (pos : Position) :
    pos ∈ squares ↔
      1 ≤ pos.rank ∧ pos.rank ≤ 8 ∧ 1 ≤ pos.file ∧ pos.file ≤ 8 := by
  cases pos with
  | mk r f =>
      simp only [squares, List.mem_flatMap, List.mem_map, List.mem_range]
      constructor
      · rintro ⟨a, ha, c, hc, heq⟩
        cases heq
        simp
        omega
      · rintro ⟨h1, h2, h3, h4⟩
        refine ⟨r - 1, by omega, f - 1, by omega, ?_⟩
        congr 1 <;> omega

end ChessProofs

namespace ChessProofs

open ChessCore ChessEval ChessSearch ChessExamples ChessSpec

/-- `get_valid_moves` yields nothing when the square is empty or hosts a
piece that is not the side to move's. -/
theorem get_valid_moves_opponent (b : Board) (pos : Position)
    (h : (b.get_piece pos).all (fun p => p.color != b.current_turn) = true) :
    b.get_valid_moves pos = [] := by
  unfold Board.get_valid_moves
  cases hp : b.get_piece pos with
  | none => rfl
  | some piece =>
      rw [hp] at h
      simp only [Option.all_some, bne_iff_ne] at h
      simp [h]

/-- Every move `get_valid_moves` returns passes `Move::is_valid`, starts at
the queried square, targets a board square, has kind `Normal`, and carries
one of the five generated promotion choices. -/
theorem mem_get_valid_moves (b : Board) (pos : Position) (m : Move)
    (hm : m ∈ b.get_valid_moves pos) :
    m.is_valid b = true ∧ m.fromSq = pos ∧ m.toSq ∈ squares ∧
      m.move_type = MoveType.Normal ∧ m.promotion ∈ promotionChoices := by
  unfold Board.get_valid_moves at hm
  cases hp : b.get_piece pos with
  | none => simp only [hp] at hm; simp at hm
  | some piece =>
      simp only [hp] at hm
      split_ifs at hm with hcol
      · simp at hm
      · simp only [List.mem_flatMap, List.mem_append] at hm
        obtain ⟨tgt, htgt, hmem⟩ := hm
        rcases hmem with hleft | hright
        · split_ifs at hleft with hv
          · simp only [List.mem_singleton] at hleft
            subst hleft
            exact ⟨hv, rfl, htgt, rfl, by simp [ChessSpec.promotionChoices, Move.new]⟩
          · simp at hleft
        · split_ifs at hright with hpawn
          · simp only [List.mem_filterMap] at hright
            obtain ⟨pt, hpt, heq⟩ := hright
            split_ifs at heq with hv
            · obtain rfl := Option.some.inj heq
              refine ⟨hv, rfl, htgt, rfl, ?_⟩
              simp only [ChessSpec.promotionChoices]
              fin_cases hpt <;> simp [Move.with_promotion]
          · simp at hright

/-- Every move in the driver's generated move list comes from
`get_valid_moves` of one of the 64 squares. -/
theorem mem_rootMoves (b : Board) (m : Move) (hm : m ∈ rootMoves b) :
    ∃ pos, pos ∈ squares ∧ m ∈ b.get_valid_moves pos := by
  unfold rootMoves at hm
  rcases List.mem_flatMap.1 hm with ⟨pos, hpos, hmem⟩
  refine ⟨pos, hpos, ?_⟩
  cases hp : b.get_piece pos with
  | none => rw [hp] at hmem; simp at hmem
  | some piece =>
      simp only [hp] at hmem
      split_ifs at hmem
      · exact hmem
      · simp at hmem

/-- If the board has no legal move, `make_move` rejects every generated
move. -/
theorem rootMoves_rejected (b : Board) (hno : ChessSpec.hasNoLegalMove b = true)
    (m : Move) (hm : m ∈ rootMoves b) : (b.make_move m).isOk = false := by
  rcases mem_rootMoves b m hm with ⟨pos, hpos, hgen⟩
  rcases mem_get_valid_moves b pos m hgen with ⟨_, hfrom, hto, htype, hpromo⟩
  simp only [ChessSpec.hasNoLegalMove, List.all_eq_true] at hno
  have hfromsq : m.fromSq ∈ squares := hfrom ▸ hpos
  have := hno m.fromSq hfromsq m.toSq hto m.promotion hpromo
  have hmeta : (⟨m.fromSq, m.toSq, MoveType.Normal, m.promotion⟩ : Move) = m := by
    cases m with
    | mk f t ty pr => cases htype; rfl
  rw [hmeta] at this
  simp only [Bool.not_eq_true'] at this
  exact this

end ChessProofs

namespace ChessProofs

open ChessCore ChessEval ChessSearch ChessExamples ChessSpec

/-- On a duplicate-free association list (a hash map's invariant), lookup
returns the piece of any stored entry. -/
theorem findPiece_nodup :
    ∀ (l : List (Position × Piece)) (pos : Position) (p : Piece),
      (l.map Prod.fst).Nodup → (pos, p) ∈ l → findPiece l pos = some p := by
  intro l
  induction l with
  | nil => intro pos p _ hmem; simp at hmem
  | cons qp rest ih =>
      intro pos p hnd hmem
      obtain ⟨q, r⟩ := qp
      simp only [List.map_cons, List.nodup_cons] at hnd
      rcases List.mem_cons.1 hmem with heq | htail
      · cases heq
        simp [findPiece]
      · have hq : q ≠ pos := by
          intro hqe
          subst hqe
          exact hnd.1 (List.mem_map.2 ⟨(q, p), htail, rfl⟩)
        simp only [findPiece, if_neg hq]
        exact ih pos p hnd.2 htail

/-- A pattern-valid king move never spans two files, so `make_move` never
routes a scan-generated king move into the castling branch. -/
theorem is_valid_king_file (m : Move) (b : Board) (p : Piece)
    (hp : b.get_piece m.fromSq = some p) (hk : p.piece_type = PieceType.King)
    (hv : m.is_valid b = true) : (fileDiff m).natAbs ≤ 1 := by
  unfold Move.is_valid at hv
  simp only [hp] at hv
  split_ifs at hv
  · cases hq : b.get_piece m.toSq with
    | none =>
        simp only [hq] at hv
        unfold Move.is_valid_piece_movement at hv
        rw [hk] at hv
        simp [Move.is_valid_king_move] at hv
        omega
    | some dest =>
        simp only [hq] at hv
        split_ifs at hv
        unfold Move.is_valid_piece_movement at hv
        rw [hk] at hv
        simp [Move.is_valid_king_move] at hv
        omega

/-- `update_castling_rights` only touches the castling-rights field. -/
theorem update_castling_rights_fields (b : Board) (p : Piece) (m : Move) :
    (b.update_castling_rights p m).pieces = b.pieces ∧
      (b.update_castling_rights p m).current_turn = b.current_turn ∧
      (b.update_castling_rights p m).last_move = b.last_move := by
  refine ⟨?_, ?_, ?_⟩ <;>
    (simp only [Board.update_castling_rights]
     cases p.piece_type <;> (try split_ifs) <;> rfl)

/-- `make_move_without_validation` succeeds whenever the start square is
occupied and the move carries no promotion. -/
theorem mwv_ok_promo_none (b : Board) (m : Move) (p : Piece)
    (hp : b.get_piece m.fromSq = some p) (hpr : m.promotion = none) :
    ∃ nb, b.make_move_without_validation m = Except.ok nb := by
  unfold Board.make_move_without_validation
  rw [hp, hpr]
  exact ⟨_, rfl⟩

end ChessProofs

namespace ChessProofs

open ChessCore ChessEval ChessSearch ChessExamples ChessSpec

/-- If the escape scan of `is_checkmate` / `is_stalemate` finds an escape,
`make_move` accepts that very move (on a board whose piece map has the
hash-map key invariant): the move is promotion-free, both ends are board
squares, the piece belongs to the mover and is no two-file king move, the
pattern check passes, the unvalidated application succeeds and leaves the
mover out of check — which is all `make_move` checks. -/
theorem escape_to_legal (b : Board)
    (hnd : (b.pieces.map Prod.fst).Nodup) (hesc : b.hasEscape = true) :
    ∃ pos tgt, pos ∈ squares ∧ tgt ∈ squares ∧
      (b.make_move (Move.new pos tgt)).isOk = true := by
  unfold Board.hasEscape at hesc
  rw [List.any_eq_true] at hesc
  obtain ⟨⟨pos, p⟩, hmem, hbody⟩ := hesc
  rw [decide_eq_true_eq] at hbody
  obtain ⟨hcolor, hany⟩ := hbody
  rw [List.any_eq_true] at hany
  obtain ⟨tgt, htgt, hbody2⟩ := hany
  simp only [Bool.and_eq_true] at hbody2
  obtain ⟨hvalid, hrest⟩ := hbody2
  have hpiece : b.get_piece pos = some p := findPiece_nodup b.pieces pos p hnd hmem
  have hcolor' : p.color = b.current_turn := hcolor
  -- the start square is a board square because `is_valid` checked it
  have hposs : pos ∈ squares := by
    have hv := hvalid
    unfold Move.is_valid at hv
    rw [show (Move.new pos tgt).fromSq = pos from rfl] at hv
    rw [hpiece] at hv
    split_ifs at hv with hb
    rw [mem_squares]
    rcases hb with ⟨hb1, _⟩
    simp only [Board.is_position_valid, Bool.and_eq_true, decide_eq_true_eq] at hb1
    omega
  cases hmwv : b.make_move_without_validation (Move.new pos tgt) with
  | error e => rw [hmwv] at hrest; simp at hrest
  | ok tb =>
      rw [hmwv] at hrest
      have hcheck : tb.is_in_check b.current_turn = false := by
        simpa using hrest
      refine ⟨pos, tgt, hposs, htgt, ?_⟩
      unfold Board.make_move
      rw [show (Move.new pos tgt).fromSq = pos from rfl]
      simp only [hpiece]
      have hc1 : ¬ (p.color ≠ b.current_turn) := by rw [hcolor']; simp
      rw [if_neg hc1]
      have hnotcastle : ¬ (p.piece_type = PieceType.King ∧
          (fileDiff (Move.new pos tgt)).natAbs = 2) := by
        rintro ⟨hk, h2⟩
        have := is_valid_king_file (Move.new pos tgt) b p hpiece hk hvalid
        omega
      rw [if_neg hnotcastle]
      have hv1 : ¬ (¬ (Move.new pos tgt).is_valid b = true) := by simp [hvalid]
      rw [if_neg hv1]
      rw [hmwv]
      have hc2 : ¬ (tb.is_in_check p.color = true) := by
        rw [hcolor', hcheck]
        simp
      simp only []
      rw [if_neg hc2]
      obtain ⟨hfields1, _, _⟩ :=
        update_castling_rights_fields b p (Move.new pos tgt)
      have hpiece1 : (b.update_castling_rights p (Move.new pos tgt)).get_piece pos
          = some p := by
        unfold Board.get_piece
        rw [hfields1]
        exact hpiece
      obtain ⟨nb, hnb⟩ := mwv_ok_promo_none
        (b.update_castling_rights p (Move.new pos tgt)) (Move.new pos tgt) p
        hpiece1 rfl
      simp only [hnb]
      rfl

/-- A board with no legal move is checkmate or stalemate. -/
theorem noLegal_terminal (b : Board) (hno : hasNoLegalMove b = true)
    (hnd : (b.pieces.map Prod.fst).Nodup) :
    (b.is_checkmate || b.is_stalemate) = true := by
  by_contra hcon
  simp only [Bool.or_eq_true, not_or, Bool.not_eq_true] at hcon
  obtain ⟨hcm, hsm⟩ := hcon
  have hesc : b.hasEscape = true := by
    unfold Board.is_checkmate at hcm
    unfold Board.is_stalemate at hsm
    by_cases hic : b.is_in_check b.current_turn = true
    · rw [if_neg (by simp [hic])] at hcm
      simpa using hcm
    · rw [if_neg hic] at hsm
      simpa using hsm
  obtain ⟨pos, tgt, hposs, htgts, hok⟩ := escape_to_legal b hnd hesc
  simp only [hasNoLegalMove, List.all_eq_true] at hno
  have := hno pos hposs tgt htgts none (by simp [promotionChoices])
  rw [show (⟨pos, tgt, MoveType.Normal, none⟩ : Move) = Move.new pos tgt from rfl] at this
  rw [hok] at this
  simp at this

end ChessProofs

namespace ChessProofs

open ChessCore ChessEval ChessSearch ChessExamples ChessSpec

/-- On a board with no legal move (with the hash-map key invariant),
`search_best_move` returns `None`, for every time oracle and every initial
transposition table: the obvious-move scan fails, the board is terminal,
and no iteration ever records a principal variation. -/
theorem searchBestMove_no_legal (b : Board) (hno : hasNoLegalMove b = true)
    (hnd : (b.pieces.map Prod.fst).Nodup) (oracle : Nat → Bool) (tt0 : TT) :
    (searchBestMove b oracle tt0).best = none := by
  have hterm := noLegal_terminal b hno hnd
  have hroot : ∀ m ∈ rootMoves b, (b.make_move m).isOk = false :=
    fun m hm => rootMoves_rejected b hno m hm
  have hobv := find_obvious_none b (rootMoves b) hroot
  simp only [searchBestMove, hobv]
  exact idLoop_terminal_best b hterm oracle _ _ _ _ _ _ histInit

/-- `search_best_move` returns the caller's board unchanged. -/
theorem searchBestMove_board (b : Board) (oracle : Nat → Bool) (tt0 : TT) :
    (searchBestMove b oracle tt0).board = b := by
  simp only [searchBestMove]
  cases hobv : find_obvious_move b (rootMoves b) with
  | some m => rfl
  | none => exact idLoop_board b oracle _ _ _ _ _ _ histInit _

end ChessProofs

namespace ChessProofs

open ChessCore ChessEval ChessSearch ChessExamples ChessSpec

set_option maxRecDepth 100000

/-- The stalemate example has no legal move (all 20480 candidate moves are
rejected by `make_move`). -/
theorem exStale_no_legal : hasNoLegalMove exStale = true := by decide

/-- The stalemate example's piece map has no duplicate squares. -/
theorem exStale_nodup : (exStale.pieces.map Prod.fst).Nodup := by decide

/-- The stalemate example is a stalemate. -/
theorem exStale_stalemate : exStale.is_stalemate = true := by decide

/-- The stalemate example's mover is not in check. -/
theorem exStale_not_check : exStale.is_in_check Color.Black = false := by decide

/-- The static evaluation of the stalemate example (material and
king-queen-versus-king bonuses, seen from Black). -/
theorem exStale_eval : ChessEval.evaluate_position exStale = -2900 := by decide

/-- The checkmate example is a checkmate. -/
theorem exMate_checkmate : exMate.is_checkmate = true := by decide

end ChessProofs

namespace ChessProofs

open ChessCore ChessEval ChessSearch ChessExamples ChessSpec

set_option maxRecDepth 100000

/-- The one-move board generates exactly the pawn push a3-a4. -/
theorem exOneMove_root : rootMoves exOneMove = [mvA4] := by decide

/-- The pawn push a3-a4 is legal on the one-move board. -/
theorem exOneMove_legal : (exOneMove.make_move mvA4).isOk = true := by decide

/-- Searching the one-move board with a first poll that continues and a
second poll that stops: no move is returned, and the search ran — the
transposition table gained the root entry of the completed depth-1
iteration.  (Every reply to the only move evaluates above the first
aspiration window's ceiling, so the iteration never records a principal
variation, and the driver keeps `best_move = None`.) -/
theorem exOneMove_search :
    searchBestMove exOneMove oracleOne [] =
      ⟨none, exOneMove,
        [(get_position_key exOneMove, ⟨1, -19000, EntryType.Exact, none⟩)]⟩ := by
  decide

end ChessProofs

namespace ChessProofs

open ChessCore ChessEval ChessSearch ChessExamples ChessSpec

set_option maxRecDepth 100000

/-- The obvious-move scan of the queen-capture board returns the pawn
capture d4xe5. -/
theorem exObvious_found :
    find_obvious_move exObvious (rootMoves exObvious) = some mvObvious := by
  decide

/-- With the lower-bound entry present (stored depth 5, score 50), a
non-PV node searched to depth 2 with window [0, 10) returns the entry's
score immediately, leaving the table untouched. -/
theorem exKings_probe :
    (pvs false exKings 2 0 10 ttKings histInit [] false none).score = 50 ∧
      (pvs false exKings 2 0 10 ttKings histInit [] false none).tt = ttKings := by
  constructor <;> decide

/-- Without the entry, the same node actually searches and returns 10. -/
theorem exKings_search :
    (pvs false exKings 2 0 10 [] histInit [] false none).score = 10 := by
  decide

/-- The pinned rook's sideways move is in `get_valid_moves`' output. -/
theorem exPinned_mem : mvPinned ∈ exPinned.get_valid_moves ⟨2, 5⟩ := by decide

/-- `make_move` rejects the pinned rook's sideways move (it would leave
the white king in check). -/
theorem exPinned_rejected : (exPinned.make_move mvPinned).isOk = false := by
  decide

/-- The evaluator's values on the perspective-symmetry board and its
mirror: 2050 from White to move, but -43050 after mirroring (the check
bonus and the centre-cross "edge" mating pattern fire only on the
mirrored board). -/
theorem exC3_values :
    ChessEval.evaluate_position exC3 = 2050 ∧
      ChessEval.evaluate_position (ChessEval.mirror_sides exC3) = -43050 := by
  constructor <;> decide

end ChessProofs

namespace ChessClaims

open ChessCore ChessEval ChessSearch ChessExamples ChessSpec ChessProofs

set_option maxRecDepth 100000

/-- Claim C1 (counterexample): the claim "for every board with at least one
legal move and any time budget at least the minimum allocation,
`search_best_move` returns `Some(m)` with `m` in the legal move set" is
false.  On `exOneMove` the pawn push a3-a4 is generated and accepted by
`make_move` (at least one legal move), yet with the first poll continuing
(which a minimum-allocation budget guarantees) and the second poll
stopping (any finite budget can exhaust after a completed depth),
`search_best_move` returns `None`: all replies evaluate above the first
aspiration window's ceiling, so depth 1 completes without recording a
principal variation. -/
theorem C1_counterexample :
    mvA4 ∈ rootMoves exOneMove ∧ (exOneMove.make_move mvA4).isOk = true ∧
      (searchBestMove exOneMove oracleOne []).best = none := by
  refine ⟨?_, exOneMove_legal, ?_⟩
  · rw [exOneMove_root]; exact List.mem_singleton.2 rfl
  · rw [exOneMove_search]

/-- Claim C1 (amended): whenever the driver's obvious-move scan fires,
`search_best_move` does return `Some(m)` with `m` in the board's legal
move set (a generated move that `make_move` accepts); without that
shortcut the search may return `None` even with legal moves available
(see the counterexample). -/
theorem C1_amended (b : Board) (oracle : Nat → Bool) (tt0 : TT) (m : Move)
    (hob : find_obvious_move b (rootMoves b) = some m) :
    (b.make_move m).isOk = true ∧ (searchBestMove b oracle tt0).best = some m := by
  constructor
  · exact find_obvious_some b (rootMoves b) m hob
  · rw [searchBestMove_obvious b oracle tt0 m hob]

/-- Witness for the amended claim C1, at the queen-capture board. -/
theorem C1_witness :
    find_obvious_move exObvious (rootMoves exObvious) = some mvObvious ∧
      (exObvious.make_move mvObvious).isOk = true ∧
      (searchBestMove exObvious oracleOne []).best = some mvObvious := by
  refine ⟨exObvious_found, ?_, ?_⟩
  · exact (C1_amended exObvious oracleOne [] mvObvious exObvious_found).1
  · exact (C1_amended exObvious oracleOne [] mvObvious exObvious_found).2

/-- Claim C2 (confirmed): on every board whose side to move has no legal
move (every candidate move is rejected by `make_move`; the piece map has
the hash-map key invariant), `search_best_move` returns `None`, for every
time oracle and every starting transposition table. -/
theorem C2_no_legal_returns_none (b : Board)
    (hno : hasNoLegalMove b = true)
    (hnd : (b.pieces.map Prod.fst).Nodup) (oracle : Nat → Bool) (tt0 : TT) :
    (searchBestMove b oracle tt0).best = none :=
  searchBestMove_no_legal b hno hnd oracle tt0

/-- Witness for claim C2, at the stalemate board. -/
theorem C2_witness :
    hasNoLegalMove exStale = true ∧
      (searchBestMove exStale oracleOne []).best = none :=
  ⟨exStale_no_legal,
    C2_no_legal_returns_none exStale exStale_no_legal exStale_nodup oracleOne []⟩

/-- Claim C3 (the spec's required negamax perspective symmetry fails on the
code): on the board `exC3` (White Ra5, Ke1 against Black Kh5, White to
move), `evaluate_position` gives 2050, but the mirrored board evaluates to
-43050, not -2050 — the check bonus is applied in White's frame and the
centre-cross "edge" mating pattern fires only on the mirror. -/
theorem C3_not_antisymmetric :
    evaluate_position exC3 = 2050 ∧
      evaluate_position (mirror_sides exC3) = -43050 ∧
      evaluate_position exC3 ≠ -evaluate_position (mirror_sides exC3) := by
  refine ⟨exC3_values.1, exC3_values.2, ?_⟩
  rw [exC3_values.1, exC3_values.2]
  decide

/-- Claim C4 (counterexample): the claim that stalemate and
insufficient-material boards evaluate to exactly zero is false: the
stalemate board `exStale` evaluates to -2900. -/
theorem C4_counterexample :
    exStale.is_stalemate = true ∧ evaluate_position exStale = -2900 ∧
      evaluate_position exStale ≠ 0 := by
  refine ⟨exStale_stalemate, exStale_eval, ?_⟩
  rw [exStale_eval]
  decide

/-- Claim C4 (amended): `evaluate_position` special-cases only checkmate,
returning the large negative sentinel -100000 for every checkmated board;
stalemate and insufficient material are not special-cased and evaluate
through the normal positional sum. -/
theorem C4_amended (b : Board) (h : b.is_checkmate = true) :
    evaluate_position b = -100000 :=
  eval_checkmate b h

/-- Witness for the amended claim C4, at the checkmate board. -/
theorem C4_witness :
    exMate.is_checkmate = true ∧ evaluate_position exMate = -100000 :=
  ⟨exMate_checkmate, C4_amended exMate exMate_checkmate⟩

/-- Claim C5 (counterexample): the claim that a depth ≥ 1 node with no
legal move returns a ply-adjusted mate score when in check and exactly
zero otherwise is false: on the stalemate board (not in check, no legal
move) a depth-1 node returns the static evaluation -2900, not 0. -/
theorem C5_counterexample :
    exStale.is_in_check Color.Black = false ∧ hasNoLegalMove exStale = true ∧
      (pvs false exStale 1 (-20000) 20000 [] histInit [] true none).score = -2900 := by
  refine ⟨exStale_not_check, exStale_no_legal, ?_⟩
  decide

/-- Claim C5 (amended): a node on a board with no legal move returns
through the entry terminal check, yielding the quiescence stand-pat of the
terminal board: -100000 on every checkmated board (at every depth, window
and cancellation state) and the static evaluation on stalemate boards;
the dedicated no-legal-move branch with its ply offset and its
`is_endgame_or_in_check` test is unreachable. -/
theorem C5_amended (stop : Bool) (b : Board) (h : b.is_checkmate = true)
    (depth : Nat) (alpha beta : Int) (tt : TT) (hist : Hist) (pv : List Move)
    (isPv : Bool) (prev : Option Move) :
    (pvs stop b depth alpha beta tt hist pv isPv prev).score = -100000 :=
  pvs_checkmate b h stop depth alpha beta tt hist pv isPv prev

/-- Witness for the amended claim C5, at the checkmate board, depth 1. -/
theorem C5_witness :
    exMate.is_checkmate = true ∧
      (pvs false exMate 1 (-20000) 20000 [] histInit [] true none).score = -100000 :=
  ⟨exMate_checkmate,
    C5_amended false exMate exMate_checkmate 1 (-20000) 20000 [] histInit [] true
      none⟩

/-- Claim C6 (counterexample): the claim that a LowerBound entry "only
raises alpha" is false: with a stored LowerBound entry of depth 5 and
score 50, a non-PV node searched to depth 2 with window [0, 10) returns 50
immediately (the table is not even written), although actually searching
the node returns 10. -/
theorem C6_counterexample :
    ttGet ttKings (get_position_key exKings) =
      some ⟨5, 50, EntryType.LowerBound, none⟩ ∧
      (pvs false exKings 2 0 10 ttKings histInit [] false none).score = 50 ∧
      (pvs false exKings 2 0 10 ttKings histInit [] false none).tt = ttKings ∧
      (pvs false exKings 2 0 10 [] histInit [] false none).score = 10 := by
  refine ⟨by decide, exKings_probe.1, exKings_probe.2, exKings_search⟩

/-- Claim C6 (amended): the transposition-table probe causes an early
return exactly when the stored depth is at least the node's remaining
depth and the node is not a principal-variation node, and then: an Exact
entry returns its (mate-adjusted) score; an UpperBound entry returns when
its score is at most alpha (or the window is already empty); a LowerBound
entry raises alpha to its score and returns early exactly when that raised
alpha reaches beta.  At a principal-variation node the probe never returns
early (only the stored best move is reused for ordering). -/
theorem C6_probe_characterization (e : TTEntry) (d : Nat) (alpha beta : Int)
    (isPv : Bool) :
    ttProbe e d alpha beta isPv =
      (if d ≤ e.depth ∧ isPv = false ∧
          (e.entry_type = EntryType.Exact ∨
            (e.entry_type = EntryType.UpperBound ∧
              (adjust_mate_score e.score d ≤ alpha ∨ beta ≤ alpha)) ∨
            (e.entry_type = EntryType.LowerBound ∧
              beta ≤ max alpha (adjust_mate_score e.score d)))
        then some (adjust_mate_score e.score d) else none,
       if d ≤ e.depth ∧ isPv = false ∧ e.entry_type = EntryType.LowerBound
        then max alpha (adjust_mate_score e.score d) else alpha) := by
  unfold ttProbe
  cases he : e.entry_type <;> cases isPv <;> split_ifs <;>
    simp_all <;> omega

/-- Claim C7 (counterexample): the claim that `get_valid_moves` is fully
legal including the check filter is false: on the pin board the rook move
e2-d2 is returned by `get_valid_moves` but rejected by `make_move`
because it leaves the white king in check. -/
theorem C7_counterexample :
    mvPinned ∈ exPinned.get_valid_moves ⟨2, 5⟩ ∧
      (exPinned.make_move mvPinned).isOk = false :=
  ⟨exPinned_mem, exPinned_rejected⟩

/-- Claim C7 (amended): `get_valid_moves` returns pseudo-legal moves: every
returned move passes `Move::is_valid` (movement pattern, path, capture
colour) and starts at the queried square, but the check filter lives in
`make_move`, which may reject a returned move. -/
theorem C7_amended (b : Board) (pos : Position) (m : Move)
    (hm : m ∈ b.get_valid_moves pos) :
    m.is_valid b = true ∧ m.fromSq = pos :=
  ⟨(mem_get_valid_moves b pos m hm).1, (mem_get_valid_moves b pos m hm).2.1⟩

/-- Witness for the amended claim C7, at the pin board. -/
theorem C7_witness :
    mvPinned ∈ exPinned.get_valid_moves ⟨2, 5⟩ ∧
      mvPinned.is_valid exPinned = true ∧ mvPinned.fromSq = ⟨2, 5⟩ :=
  ⟨exPinned_mem, C7_amended exPinned ⟨2, 5⟩ mvPinned exPinned_mem⟩

/-- Claim C8 (counterexample): the claim that a one-entry move list makes
`search_best_move` return that move immediately without running the
iterative-deepening search is false: on `exOneMove` the generated list has
exactly one move, yet the search runs (the transposition table gains the
completed iteration's root entry) and the driver does not even return the
move (it returns `None`). -/
theorem C8_counterexample :
    (rootMoves exOneMove).length = 1 ∧
      (searchBestMove exOneMove oracleOne []).best = none ∧
      (searchBestMove exOneMove oracleOne []).tt ≠ [] := by
  refine ⟨by rw [exOneMove_root]; rfl, ?_, ?_⟩
  · rw [exOneMove_search]
  · rw [exOneMove_search]; simp

/-- Claim C8 (amended): the driver's only pre-search shortcut is the
obvious-move scan: whenever `find_obvious_move` returns a move,
`search_best_move` returns it immediately, the caller's board unchanged
and the transposition table untouched apart from the size-triggered
clear; there is no exactly-one-move shortcut. -/
theorem C8_amended (b : Board) (oracle : Nat → Bool) (tt0 : TT) (m : Move)
    (hob : find_obvious_move b (rootMoves b) = some m) :
    searchBestMove b oracle tt0 =
      ⟨some m, b, if tt0.length > MAX_TT_SIZE then [] else tt0⟩ :=
  searchBestMove_obvious b oracle tt0 m hob

/-- Witness for the amended claim C8, at the queen-capture board. -/
theorem C8_witness :
    find_obvious_move exObvious (rootMoves exObvious) = some mvObvious ∧
      searchBestMove exObvious oracleOne [] = ⟨some mvObvious, exObvious, []⟩ := by
  refine ⟨exObvious_found, ?_⟩
  rw [C8_amended exObvious oracleOne [] mvObvious exObvious_found]
  rfl

/-- Claim C9 (confirmed): `search_best_move` never mutates the caller's
board: the embedding threads the caller's board as explicit state (the
Rust signature takes `&Board`), all search work happens on clone-derived
boards, and the board component of the result equals the input board —
piece placement, side to move, castling rights and last move included —
for every board, oracle and transposition table. -/
theorem C9_board_unchanged (b : Board) (oracle : Nat → Bool) (tt0 : TT) :
    (searchBestMove b oracle tt0).board = b :=
  searchBestMove_board b oracle tt0

/-- Claim C10 (confirmed): `get_valid_moves` returns the empty list
whenever the queried square is unoccupied or hosts a piece that does not
belong to the side to move; it never proposes moves for the opponent. -/
theorem C10_opponent_empty (b : Board) (pos : Position)
    (h : (b.get_piece pos).all (fun p => p.color != b.current_turn) = true) :
    b.get_valid_moves pos = [] :=
  get_valid_moves_opponent b pos h

/-- Witness for claim C10: the white king's square on the stalemate board
(Black to move) yields no moves. -/
theorem C10_witness :
    (exStale.get_piece ⟨1, 1⟩).all (fun p => p.color != exStale.current_turn)
        = true ∧
      exStale.get_valid_moves ⟨1, 1⟩ = [] :=
  ⟨by decide, C10_opponent_empty exStale ⟨1, 1⟩ (by decide)⟩

end ChessClaims
